import Mathlib

/-!
Shallow embedding of the Reconciliation & Notification Engine of
`src/manager.py` (`run_monitor` and its helpers).

Modelling conventions:
* Python floats are idealised as exact rationals (`ℚ`); `round(x, n)` is
  round-half-to-even on the exact rational value.
* Python numbers that flow through `format_delta` keep their textual shape
  via `PyNum`: `PyNum.int n` prints without a decimal point, `PyNum.dec m e`
  prints with `e` digits after the decimal point (value `m / 10^e`).
* Python dicts are association lists with insert-or-replace-in-place
  (`insertA`), preserving insertion order like CPython dicts; Python sets
  are duplicate-free string lists grown with `setAdd`.
* The Telegram transport is modelled as always succeeding; sent messages
  receive consecutive ids from the counter `nextMsgId` (starting at 1, so a
  message id is always truthy).  Outbound traffic is recorded as a list of
  `Msg` values carrying the data that distinguishes the message kinds.
* One tick reads a single wall-clock instant `Snapshot.now` (the source
  calls `time.time()` twice a few microseconds apart) and a single calendar
  day `Snapshot.day`; `history_storage.deals` is the fixed list
  `Snapshot.deals` for the tick, so the source's 0.1 s re-query returns the
  same result and is folded into one read.
-/

unseal Rat.add Rat.sub Rat.mul Rat.inv

namespace KroomManager

/-- Association-list lookup, first binding wins (models Python dict access;
keys are unique by construction since inserts replace in place). -/
def lookupA {α : Type} : List (String × α) → String → Option α
  | [], _ => none
  | (k, v) :: rest, key => if k = key then some v else lookupA rest key

/-- Membership test on the keys of an association list (Python `in` on a dict). -/
def containsKey {α : Type} (l : List (String × α)) (k : String) : Bool :=
  (lookupA l k).isSome

/-- Insert-or-replace: an existing key keeps its position and gets the new
value, a fresh key is appended (CPython dict assignment semantics). -/
def insertA {α : Type} : List (String × α) → String → α → List (String × α)
  | [], k, v => [(k, v)]
  | (k', v') :: rest, k, v =>
      if k' = k then (k', v) :: rest else (k', v') :: insertA rest k v

/-- Delete a key from an association list (Python `del d[k]`). -/
def eraseA {α : Type} : List (String × α) → String → List (String × α)
  | [], _ => []
  | (k', v') :: rest, k => if k' = k then rest else (k', v') :: eraseA rest k

/-- Keys of an association list in insertion order (Python dict iteration). -/
def keysOf {α : Type} (l : List (String × α)) : List String :=
  l.map Prod.fst

/-- Python `set.add`: no duplicates, idempotent. -/
def setAdd (s : List String) (x : String) : List String :=
  if s.contains x then s else s ++ [x]

/-- Substring occurrence on character lists (structural recursion so that
kernel evaluation works on concrete inputs). -/
def pyInChars (needle : List Char) : List Char → Bool
  | [] => needle == []
  | c :: t => needle.isPrefixOf (c :: t) || pyInChars needle t

/-- Python substring test `needle in hay` for nonempty needles. -/
def pyIn (needle hay : String) : Bool :=
  pyInChars needle.toList hay.toList

/-- Python `str.lower()`, mapped over the characters. -/
def pyLower (s : String) : String :=
  ⟨s.toList.map Char.toLower⟩

/-- Python truthiness of an optional string: `None` and `""` are falsy. -/
def pyTruthy : Option String → Bool
  | none => false
  | some s => ! (s == "")

/-- Python `a or b` on optional strings: `a` unless it is falsy (`None` or
the empty string), in which case `b`. -/
def pyOrStr (a b : Option String) : Option String :=
  if pyTruthy a then a else b

/-- Removal of every occurrence of `".s"` from a character list
(structural recursion so that kernel evaluation works). -/
def stripDotSChars : List Char → List Char
  | [] => []
  | [c] => [c]
  | c1 :: c2 :: rest =>
    if c1 = '.' ∧ c2 = 's' then stripDotSChars rest
    else c1 :: stripDotSChars (c2 :: rest)

/-- Symbol normalisation `symbol.replace('.s', '')` from the source. -/
def stripDotS (s : String) : String :=
  ⟨stripDotSChars s.toList⟩

/-- Floor of a rational, computed on the numerator and denominator so that
kernel evaluation works on concrete inputs. -/
def ratFloor (q : ℚ) : ℤ :=
  Int.fdiv q.num q.den

/-- Round-half-to-even to an integer, the rounding used by Python `round`. -/
def rndHalfToEven (q : ℚ) : ℤ :=
  let f := ratFloor q
  if q - f < 1 / 2 then f
  else if q - f > 1 / 2 then f + 1
  else if f % 2 = 0 then f else f + 1

/-- Python `round(q, n)` for `n ≥ 0`, on the idealised rational value. -/
def pyRound (q : ℚ) (n : ℕ) : ℚ :=
  (rndHalfToEven (q * 10 ^ n) : ℚ) / 10 ^ n

/-- A Python number together with its textual shape: `int n` prints with no
decimal point; `dec m e` is a float printing with `e` digits after the
decimal point and value `m / 10^e`. -/
inductive PyNum where
  | int : ℤ → PyNum
  | dec : ℤ → ℕ → PyNum
deriving DecidableEq

/-- Numeric value of a `PyNum`. -/
def PyNum.toRat : PyNum → ℚ
  | .int n => (n : ℚ)
  | .dec m e => (m : ℚ) / 10 ^ e

/-- Whether `str(x)` contains a decimal point (`'.' in ref_str`). -/
def hasDot : PyNum → Bool
  | .int _ => false
  | .dec _ _ => true

/-- Number of digits after the decimal point in `str(x)`
(`len(ref_str.split('.')[1])`); unused when there is no point. -/
def fracDigits : PyNum → ℕ
  | .int _ => 0
  | .dec _ e => e

/-- Translation of `format_delta` (src/manager.py lines 58-68): round `delta`
to as many decimals as `str(ref_price)` shows after the decimal point, and
to 0 decimals when `str(ref_price)` has no decimal point.  The source's
`except: return round(delta, 2)` branch is unreachable for numeric
arguments and has no counterpart here. -/
def format_delta (delta : ℚ) (ref_price : PyNum) : ℚ :=
  let decimals := if hasDot ref_price then fracDigits ref_price else 0
  pyRound delta decimals

/-- Tracked data of a position, the tuple stored in
`last_positions[pos_id]` (openPrice, takeProfit, stopLoss, type, symbol,
orderId). -/
structure PosData where
  openPrice : Option PyNum
  takeProfit : Option ℚ
  stopLoss : Option ℚ
  ptype : String
  symbol : String
  orderId : Option String
deriving DecidableEq

/-- Tracked data of a pending order, the tuple stored in
`last_pending_orders[order_id]` (price, takeProfit, stopLoss, type, symbol). -/
structure OrdData where
  price : Option ℚ
  takeProfit : Option ℚ
  stopLoss : Option ℚ
  otype : String
  symbol : String
deriving DecidableEq

/-- Default tuple `(None, None, None, None, 'N/A', None)` used by
`last_positions.get(pos_id, ...)`; the `None` in the type slot is modelled
as `""` (it is only read in branches where the id was found). -/
def defaultPosData : PosData :=
  ⟨none, none, none, "", "N/A", none⟩

/-- Default tuple `(None, None, None, None, 'N/A')` used by
`last_pending_orders.get(order_id, ...)`; `None` in the type slot is
modelled as `""`. -/
def defaultOrdData : OrdData :=
  ⟨none, none, none, "", "N/A"⟩

/-- Raw position record as delivered by the broker snapshot. -/
structure RawPosition where
  pid : Option String
  openPrice : Option PyNum
  takeProfit : Option ℚ
  stopLoss : Option ℚ
  ptype : String
  symbol : String
  orderId : Option String
deriving DecidableEq

/-- Raw pending-order record as delivered by the broker snapshot. -/
structure RawOrder where
  oid : Option String
  price : Option ℚ
  takeProfit : Option ℚ
  stopLoss : Option ℚ
  otype : String
  symbol : String
deriving DecidableEq

/-- Historical deal record (`history_storage.deals` entry). -/
structure Deal where
  positionId : Option String
  entryType : Option String
  price : Option ℚ
deriving DecidableEq

/-- Record appended to `daily_closed_positions`. -/
structure ClosedRec where
  cid : String
  symbol : String
  points : ℚ
  reason : String
deriving DecidableEq

/-- Record appended to `cancelled_orders`. -/
structure CancelRec where
  cid : String
  symbol : String
  otype : String
  price : Option ℚ
deriving DecidableEq

/-- One outbound Telegram message, by kind, with the identifying payload. -/
inductive Msg where
  | closeNotice (posId symbol : String) (closingPrice delta : ℚ) (reason : String)
      (replyTo : Option ℕ)
  | closeMissingPrice (posId symbol : String)
  | closeNoDeal (posId symbol : String)
  | triggeredNotice (orderId symbol : String) (replyTo : Option ℕ)
  | canceledNotice (orderId symbol : String) (replyTo : Option ℕ)
  | newPositionNotice (posId symbol : String)
  | pendingNotice (orderId symbol : String)
  | statusUpdate
deriving DecidableEq

/-- The mutable state of `run_monitor`'s inner monitoring loop
(initialised at src/manager.py lines 219-235), plus the message-id counter
standing in for Telegram's id assignment. -/
structure MonState where
  lastPositions : List (String × PosData)
  positionMessages : List (String × ℕ)
  lastPendingOrders : List (String × OrdData)
  pendingOrderMessages : List (String × ℕ)
  triggeredPendingMap : List (String × ℕ)
  processedOrders : List String
  linkedOrders : List String
  pendingDisappearedOrders : List (String × (ℚ × OrdData))
  pinnedMessageId : Option ℕ
  lastStatusUpdateTime : ℚ
  today : ℤ
  dailyClosedPositions : List ClosedRec
  dailyPoints : ℚ
  cancelledOrders : List CancelRec
  nextMsgId : ℕ
deriving DecidableEq

/-- Confirmation delay `order_processing_delay = 3` seconds. -/
def order_processing_delay : ℚ := 3

/-- Summary throttle `min_update_interval = 2` seconds. -/
def min_update_interval : ℚ := 2

/-- One broker/world observation consumed by a tick: wall-clock date and
time, terminal positions and pending orders, and the deal history. -/
structure Snapshot where
  day : ℤ
  now : ℚ
  positions : List RawPosition
  orders : List RawOrder
  deals : List Deal
deriving DecidableEq

/-- Fresh loop state (src/manager.py lines 219-235), for wall-clock day `d`. -/
def initState (d : ℤ) : MonState :=
  { lastPositions := []
    positionMessages := []
    lastPendingOrders := []
    pendingOrderMessages := []
    triggeredPendingMap := []
    processedOrders := []
    linkedOrders := []
    pendingDisappearedOrders := []
    pinnedMessageId := none
    lastStatusUpdateTime := 0
    today := d
    dailyClosedPositions := []
    dailyPoints := 0
    cancelledOrders := []
    nextMsgId := 1 }

/-- Day-rollover check (src/manager.py lines 240-248): when the wall-clock
date differs from the stored day key, reset the daily ledger wholesale and
invalidate the pinned summary id. -/
def rollover (d : ℤ) (s : MonState) : MonState :=
  if d ≠ s.today then
    { s with
      dailyClosedPositions := []
      dailyPoints := 0
      cancelledOrders := []
      today := d
      pinnedMessageId := none }
  else s

/-- Build `current_positions` from the raw snapshot (src/manager.py lines
256-277): skip falsy ids; a position already tracked keeps its first
observation's openPrice/TP/SL/type/symbol and `old_order_id or
new_order_id`; a fresh position records the reported fields with the
symbol normalised. -/
def buildCurrentPositions (last : List (String × PosData)) :
    List RawPosition → List (String × PosData) → List (String × PosData)
  | [], cur => cur
  | pos :: rest, cur =>
    if pyTruthy pos.pid then
      let pid := pos.pid.getD ""
      match lookupA last pid with
      | some old =>
          buildCurrentPositions last rest
            (insertA cur pid { old with orderId := pyOrStr old.orderId pos.orderId })
      | none =>
          buildCurrentPositions last rest
            (insertA cur pid
              ⟨pos.openPrice, pos.takeProfit, pos.stopLoss, pos.ptype,
                stripDotS pos.symbol, pos.orderId⟩)
    else buildCurrentPositions last rest cur

/-- Build `current_pending_orders` from the raw snapshot (src/manager.py
lines 280-293): skip falsy ids, normalise the symbol. -/
def buildCurrentPendingOrders :
    List RawOrder → List (String × OrdData) → List (String × OrdData)
  | [], cur => cur
  | o :: rest, cur =>
    if pyTruthy o.oid then
      buildCurrentPendingOrders rest
        (insertA cur (o.oid.getD "")
          ⟨o.price, o.takeProfit, o.stopLoss, o.otype, stripDotS o.symbol⟩)
    else buildCurrentPendingOrders rest cur

/-- Whether the take-profit level counts as hit, direction-aware
(src/manager.py lines 323 and 333). -/
def tpHit (isBuy : Bool) (op cp : ℚ) : Option ℚ → Bool
  | none => false
  | some t =>
      match isBuy with
      | true => cp ≥ op + (95 / 100) * (t - op)
      | false => cp ≤ op - (95 / 100) * (op - t)

/-- Whether the stop-loss level counts as hit, direction-aware
(src/manager.py lines 326 and 336). -/
def slHit (isBuy : Bool) (op cp : ℚ) : Option ℚ → Bool
  | none => false
  | some l =>
      match isBuy with
      | true => cp ≤ op - (95 / 100) * (op - l)
      | false => cp ≥ op + (95 / 100) * (l - op)

/-- Close classification and signed delta (src/manager.py lines 318-341):
direction from `"buy" in trade_type.lower()`, delta `closing - open` for a
buy and `open - closing` for a sell, reason TP / SL / manual by the 95 %
threshold tests. -/
def classifyClose (op : ℚ) (tp sl : Option ℚ) (tradeType : String) (cp : ℚ) :
    ℚ × String :=
  let isBuy := pyIn "buy" (pyLower tradeType)
  let delta := if isBuy then cp - op else op - cp
  let reason :=
    if tpHit isBuy op cp tp then "Closed via TP"
    else if slHit isBuy op cp sl then "Closed via SL"
    else "Manual Closing"
  (delta, reason)

/-- Success path of `update_pinned_message` (src/manager.py lines 176-202):
edit in place when a pinned id exists, otherwise send-and-pin a fresh
message consuming the next message id.  Transport failures are outside the
model. -/
def update_pinned_message (pinned : Option ℕ) (nextId : ℕ) : Option ℕ × ℕ :=
  match pinned with
  | some i => (some i, nextId)
  | none => (some nextId, nextId + 1)

/-- Handle one closed position id (src/manager.py lines 297-393): find the
first `DEAL_ENTRY_OUT` deal for the id; with a closing price and an open
price, classify, round the delta, extend the daily ledger, notify as a
reply to the opening message and drop that thread link; without price
data or without a deal, send the degraded notice. -/
def processOneClosedCore (deals : List Deal) (pid : String) (s : MonState) :
    MonState × List Msg :=
  match deals.filter
      (fun d => d.positionId == some pid && d.entryType == some "DEAL_ENTRY_OUT") with
  | closingDeal :: _ =>
    let pd := (lookupA s.lastPositions pid).getD defaultPosData
    match closingDeal.price, pd.openPrice with
    | some cp, some op =>
        let dr := classifyClose op.toRat pd.takeProfit pd.stopLoss pd.ptype cp
        let delta := format_delta dr.1 op
        let replyTo := lookupA s.positionMessages pid
        ({ s with
            dailyClosedPositions :=
              s.dailyClosedPositions ++ [(⟨pid, pd.symbol, delta, dr.2⟩ : ClosedRec)]
            dailyPoints := s.dailyPoints + delta
            positionMessages := eraseA s.positionMessages pid },
          [Msg.closeNotice pid pd.symbol cp delta dr.2 replyTo])
    | _, _ =>
        (s, [Msg.closeMissingPrice pid pd.symbol])
  | [] =>
    let pd := (lookupA s.lastPositions pid).getD defaultPosData
    (s, [Msg.closeNoDeal pid pd.symbol])

/-- Wrapper adding the per-close pinned-summary refresh of src/manager.py
lines 389-393, which runs unconditionally after every close. -/
def processOneClosed (deals : List Deal) (pid : String) (s : MonState) :
    MonState × List Msg :=
  let r := processOneClosedCore deals pid s
  let pn := update_pinned_message r.1.pinnedMessageId r.1.nextMsgId
  ({ r.1 with pinnedMessageId := pn.1, nextMsgId := pn.2 },
    r.2 ++ [Msg.statusUpdate])

/-- Loop of src/manager.py lines 296-393 over the closed position ids. -/
def closeLoop (deals : List Deal) : List String → MonState → MonState × List Msg
  | [], s => (s, [])
  | pid :: rest, s =>
    let r1 := processOneClosed deals pid s
    let r2 := closeLoop deals rest r1.1
    (r2.1, r1.2 ++ r2.2)

/-- Ids of positions present in the previous snapshot and absent from the
current one (src/manager.py line 296). -/
def closedIds (last : List (String × PosData)) (cur : List (String × PosData)) :
    List String :=
  (keysOf last).filter (fun pid => ! containsKey cur pid)

/-- Order ids present in the previous snapshot and absent from the current
one (src/manager.py line 396). -/
def disappearedIds (last : List (String × OrdData)) (cur : List (String × OrdData)) :
    List String :=
  (keysOf last).filter (fun oid => ! containsKey cur oid)

/-- Link a triggered order to its position and announce it (src/manager.py
lines 412-433, 468-490, 537-559, 569-591): record the thread link, add the
id to the linked set, send the triggered notice as a reply to the original
pending-order announcement and remember the sent message for the close. -/
def linkTriggered (curPos : List (String × PosData)) (oid : String)
    (s : MonState) : MonState × List Msg :=
  let posData := (lookupA curPos oid).getD defaultPosData
  let replyTo := lookupA s.pendingOrderMessages oid
  ({ s with
      triggeredPendingMap := insertA s.triggeredPendingMap oid (replyTo.getD 0)
      linkedOrders := setAdd s.linkedOrders oid
      positionMessages := insertA s.positionMessages oid s.nextMsgId
      nextMsgId := s.nextMsgId + 1 },
    [Msg.triggeredNotice oid posData.symbol replyTo])

/-- Handle one freshly disappeared order id (src/manager.py lines 399-444):
skip ids already processed or queued; an id already among the current
positions is the same-tick trigger fast path (announce if still tracked
and unlinked, then mark processed); otherwise enqueue the order with the
tick's wall-clock time for delayed confirmation. -/
def disappearedStep (now : ℚ) (curPos : List (String × PosData)) (oid : String)
    (s : MonState) (upd : Bool) : MonState × List Msg × Bool :=
  if s.processedOrders.contains oid || containsKey s.pendingDisappearedOrders oid then
    (s, [], upd)
  else if containsKey curPos oid then
    let r :=
      if containsKey s.pendingOrderMessages oid && ! s.linkedOrders.contains oid then
        linkTriggered curPos oid s
      else (s, [])
    ({ r.1 with processedOrders := setAdd r.1.processedOrders oid }, r.2, true)
  else
    let od := (lookupA s.lastPendingOrders oid).getD defaultOrdData
    ({ s with pendingDisappearedOrders :=
        insertA s.pendingDisappearedOrders oid (now, od) }, [], true)

/-- Loop of src/manager.py lines 399-444 over the disappeared order ids. -/
def disappearedLoop (now : ℚ) (curPos : List (String × PosData)) :
    List String → MonState → Bool → MonState × List Msg × Bool
  | [], s, upd => (s, [], upd)
  | oid :: rest, s, upd =>
    let r1 := disappearedStep now curPos oid s upd
    let r2 := disappearedLoop now curPos rest r1.1 r1.2.2
    (r2.1, r1.2.1 ++ r2.2.1, r2.2.2)

/-- Queue entries whose age has reached the confirmation delay
(src/manager.py lines 447-449). -/
def ordersToProcess (now : ℚ) (queue : List (String × (ℚ × OrdData))) :
    List String :=
  (queue.filter (fun e => order_processing_delay ≤ now - e.2.1)).map Prod.fst

/-- Resolve one delayed queue entry (src/manager.py lines 452-522): skip if
already processed (leaving the queue entry behind); if the id is now a
position, trigger (announcing when still tracked and unlinked), else
cancel: extend the cancelled ledger, notify as a reply to the original
announcement, release the thread link.  Either way mark the id processed
and drop it from the queue. -/
def queueStep (curPos : List (String × PosData)) (oid : String)
    (s : MonState) (upd : Bool) : MonState × List Msg × Bool :=
  if s.processedOrders.contains oid then (s, [], upd)
  else
    let od := ((lookupA s.pendingDisappearedOrders oid).getD (0, defaultOrdData)).2
    let r :=
      if containsKey curPos oid then
        if containsKey s.pendingOrderMessages oid && ! s.linkedOrders.contains oid then
          linkTriggered curPos oid s
        else (s, [])
      else
        let replyTo := lookupA s.pendingOrderMessages oid
        ({ s with
            cancelledOrders :=
              s.cancelledOrders ++ [(⟨oid, od.symbol, od.otype, od.price⟩ : CancelRec)]
            pendingOrderMessages := eraseA s.pendingOrderMessages oid },
          [Msg.canceledNotice oid od.symbol replyTo])
    ({ r.1 with
        processedOrders := setAdd r.1.processedOrders oid
        pendingDisappearedOrders := eraseA r.1.pendingDisappearedOrders oid },
      r.2, true)

/-- Loop of src/manager.py lines 452-522 over the delay-expired queue ids. -/
def queueLoop (curPos : List (String × PosData)) :
    List String → MonState → Bool → MonState × List Msg × Bool
  | [], s, upd => (s, [], upd)
  | oid :: rest, s, upd =>
    let r1 := queueStep curPos oid s upd
    let r2 := queueLoop curPos rest r1.1 r1.2.2
    (r2.1, r1.2.1 ++ r2.2.1, r2.2.2)

/-- Position ids present in the current snapshot and absent from the
previous one (src/manager.py line 525). -/
def newPositionIds (last : List (String × PosData)) (cur : List (String × PosData)) :
    List String :=
  (keysOf cur).filter (fun pid => ! containsKey last pid)

/-- Handle one new position id (src/manager.py lines 526-614): already
linked ids were announced by the trigger path; an id matching a current or
known pending order whose announcement is tracked and unlinked is handled
as triggered; otherwise it is announced as a direct market position. -/
def newPosStep (curPos : List (String × PosData)) (curOrd : List (String × OrdData))
    (pid : String) (s : MonState) (upd : Bool) : MonState × List Msg × Bool :=
  if s.linkedOrders.contains pid then (s, [], upd)
  else if containsKey curOrd pid &&
      (containsKey s.pendingOrderMessages pid && ! s.linkedOrders.contains pid) then
    let r := linkTriggered curPos pid s
    ({ r.1 with processedOrders := setAdd r.1.processedOrders pid }, r.2, upd)
  else if containsKey s.pendingOrderMessages pid && ! s.linkedOrders.contains pid then
    let r := linkTriggered curPos pid s
    ({ r.1 with processedOrders := setAdd r.1.processedOrders pid }, r.2, upd)
  else
    let pd := (lookupA curPos pid).getD defaultPosData
    ({ s with
        positionMessages := insertA s.positionMessages pid s.nextMsgId
        nextMsgId := s.nextMsgId + 1 },
      [Msg.newPositionNotice pid pd.symbol], true)

/-- Loop of src/manager.py lines 526-614 over the new position ids. -/
def newPosLoop (curPos : List (String × PosData)) (curOrd : List (String × OrdData)) :
    List String → MonState → Bool → MonState × List Msg × Bool
  | [], s, upd => (s, [], upd)
  | pid :: rest, s, upd =>
    let r1 := newPosStep curPos curOrd pid s upd
    let r2 := newPosLoop curPos curOrd rest r1.1 r1.2.2
    (r2.1, r1.2.1 ++ r2.2.1, r2.2.2)

/-- Order ids present in the current snapshot and absent from the previous
one (src/manager.py line 617). -/
def newPendingIds (last : List (String × OrdData)) (cur : List (String × OrdData)) :
    List String :=
  (keysOf cur).filter (fun oid => ! containsKey last oid)

/-- Handle one new pending order id (src/manager.py lines 618-655): skip
ids already processed or already tracked as a position message; otherwise
announce the pending order and remember the sent message. -/
def newPendStep (curOrd : List (String × OrdData)) (oid : String)
    (s : MonState) (upd : Bool) : MonState × List Msg × Bool :=
  if s.processedOrders.contains oid || containsKey s.positionMessages oid then
    (s, [], upd)
  else
    let od := (lookupA curOrd oid).getD defaultOrdData
    ({ s with
        pendingOrderMessages := insertA s.pendingOrderMessages oid s.nextMsgId
        nextMsgId := s.nextMsgId + 1 },
      [Msg.pendingNotice oid od.symbol], true)

/-- Loop of src/manager.py lines 618-655 over the new pending order ids. -/
def newPendLoop (curOrd : List (String × OrdData)) :
    List String → MonState → Bool → MonState × List Msg × Bool
  | [], s, upd => (s, [], upd)
  | oid :: rest, s, upd =>
    let r1 := newPendStep curOrd oid s upd
    let r2 := newPendLoop curOrd rest r1.1 r1.2.2
    (r2.1, r1.2.1 ++ r2.2.1, r2.2.2)

/-- End-of-tick summary refresh (src/manager.py lines 657-672): attempted
when no pinned message id is known, or an event occurred and the minimum
update interval has elapsed since the last successful refresh. -/
def endRefresh (now : ℚ) (upd : Bool) (s : MonState) : MonState × List Msg :=
  if s.pinnedMessageId.isNone || (upd && min_update_interval ≤ now - s.lastStatusUpdateTime) then
    let pn := update_pinned_message s.pinnedMessageId s.nextMsgId
    ({ s with
        pinnedMessageId := pn.1
        nextMsgId := pn.2
        lastStatusUpdateTime := now },
      [Msg.statusUpdate])
  else (s, [])

/-- Save the snapshots for the next cycle and periodically compact the
processed-order set (src/manager.py lines 674-682). -/
def finalizeTick (curPos : List (String × PosData)) (curOrd : List (String × OrdData))
    (s : MonState) : MonState :=
  let s1 := { s with lastPositions := curPos, lastPendingOrders := curOrd }
  if 1000 < s1.processedOrders.length then
    { s1 with
        processedOrders := s1.processedOrders.filter
          (fun oid => containsKey s1.pendingOrderMessages oid || s1.linkedOrders.contains oid) }
  else s1

/-- One iteration of the inner monitoring loop of `run_monitor`
(src/manager.py lines 238-682): day rollover, snapshot ingestion, closed
positions, disappeared orders, delayed confirmation queue, new positions,
new pending orders, throttled summary refresh, state handover. -/
def tick (s : MonState) (snap : Snapshot) : MonState × List Msg :=
  let s0 := rollover snap.day s
  let curPos := buildCurrentPositions s0.lastPositions snap.positions []
  let curOrd := buildCurrentPendingOrders snap.orders []
  let r4 := closeLoop snap.deals (closedIds s0.lastPositions curPos) s0
  let r5 := disappearedLoop snap.now curPos
      (disappearedIds s0.lastPendingOrders curOrd) r4.1 false
  let r6 := queueLoop curPos (ordersToProcess snap.now r5.1.pendingDisappearedOrders)
      r5.1 r5.2.2
  let r7 := newPosLoop curPos curOrd (newPositionIds s0.lastPositions curPos) r6.1 r6.2.2
  let r8 := newPendLoop curOrd (newPendingIds s0.lastPendingOrders curOrd) r7.1 r7.2.2
  let r9 := endRefresh snap.now r8.2.2 r8.1
  (finalizeTick curPos curOrd r9.1,
    r4.2 ++ r5.2.1 ++ r6.2.1 ++ r7.2.1 ++ r8.2.1 ++ r9.2)

/-- Intermediate state of a tick: after the rollover check. -/
def tickS0 (s : MonState) (snap : Snapshot) : MonState :=
  rollover snap.day s

/-- Intermediate value of a tick: the current-position map. -/
def tickCurPos (s : MonState) (snap : Snapshot) : List (String × PosData) :=
  buildCurrentPositions (tickS0 s snap).lastPositions snap.positions []

/-- Intermediate value of a tick: the current-pending-order map. -/
def tickCurOrd (snap : Snapshot) : List (String × OrdData) :=
  buildCurrentPendingOrders snap.orders []

/-- Intermediate result of a tick: after closed-position processing. -/
def tickR4 (s : MonState) (snap : Snapshot) : MonState × List Msg :=
  closeLoop snap.deals (closedIds (tickS0 s snap).lastPositions (tickCurPos s snap))
    (tickS0 s snap)

/-- Intermediate result of a tick: after disappeared-order processing. -/
def tickR5 (s : MonState) (snap : Snapshot) : MonState × List Msg × Bool :=
  disappearedLoop snap.now (tickCurPos s snap)
    (disappearedIds (tickS0 s snap).lastPendingOrders (tickCurOrd snap))
    (tickR4 s snap).1 false

/-- Intermediate result of a tick: after delayed-queue processing. -/
def tickR6 (s : MonState) (snap : Snapshot) : MonState × List Msg × Bool :=
  queueLoop (tickCurPos s snap)
    (ordersToProcess snap.now (tickR5 s snap).1.pendingDisappearedOrders)
    (tickR5 s snap).1 (tickR5 s snap).2.2

/-- Intermediate result of a tick: after new-position processing. -/
def tickR7 (s : MonState) (snap : Snapshot) : MonState × List Msg × Bool :=
  newPosLoop (tickCurPos s snap) (tickCurOrd snap)
    (newPositionIds (tickS0 s snap).lastPositions (tickCurPos s snap))
    (tickR6 s snap).1 (tickR6 s snap).2.2

/-- Intermediate result of a tick: after new-pending-order processing. -/
def tickR8 (s : MonState) (snap : Snapshot) : MonState × List Msg × Bool :=
  newPendLoop (tickCurOrd snap)
    (newPendingIds (tickS0 s snap).lastPendingOrders (tickCurOrd snap))
    (tickR7 s snap).1 (tickR7 s snap).2.2

/-- Intermediate result of a tick: after the end-of-tick refresh. -/
def tickR9 (s : MonState) (snap : Snapshot) : MonState × List Msg :=
  endRefresh snap.now (tickR8 s snap).2.2 (tickR8 s snap).1

/-- Decomposition of `tick` into its named phases. -/
lemma tick_eq (s : MonState) (snap : Snapshot) :
    tick s snap =
      (finalizeTick (tickCurPos s snap) (tickCurOrd snap) (tickR9 s snap).1,
        (tickR4 s snap).2 ++ (tickR5 s snap).2.1 ++ (tickR6 s snap).2.1 ++
          (tickR7 s snap).2.1 ++ (tickR8 s snap).2.1 ++ (tickR9 s snap).2) := rfl

/-- Run a sequence of ticks, collecting each tick's outbound messages. -/
def runTrace (s : MonState) : List Snapshot → MonState × List (List Msg)
  | [] => (s, [])
  | snap :: rest =>
    let r := tick s snap
    let r2 := runTrace r.1 rest
    (r2.1, r.2 :: r2.2)

/-- Whether a message is the triggered notification for order id `oid`. -/
def isTriggeredFor (oid : String) : Msg → Bool
  | .triggeredNotice o _ _ => o == oid
  | _ => false

/-- Whether a message is the cancellation notification for order id `oid`. -/
def isCanceledFor (oid : String) : Msg → Bool
  | .canceledNotice o _ _ => o == oid
  | _ => false

/-- Whether a message is one of the three close-related notifications
(full, missing price data, no closing deal) for position id `pid`. -/
def isCloseFor (pid : String) : Msg → Bool
  | .closeNotice p _ _ _ _ _ => p == pid
  | .closeMissingPrice p _ => p == pid
  | .closeNoDeal p _ => p == pid
  | _ => false

/-- Count of messages satisfying `f` in a list. -/
def msgCount (f : Msg → Bool) (ms : List Msg) : ℕ :=
  ms.countP f

/-- Total count of messages satisfying `f` over a whole trace. -/
def traceCount (f : Msg → Bool) (mss : List (List Msg)) : ℕ :=
  (mss.map (msgCount f)).sum

end KroomManager

namespace KroomManager

section Lemmas

lemma lookupA_insertA_self {α : Type} (l : List (String × α)) (k : String) (v : α) :
    lookupA (insertA l k v) k = some v := by
  induction l with
  | nil => simp [insertA, lookupA]
  | cons hd tl ih =>
    by_cases h : hd.1 = k
    · simp [insertA, h, lookupA]
    · simp [insertA, h, lookupA, ih]

lemma lookupA_insertA_ne {α : Type} (l : List (String × α)) (k k' : String) (v : α)
    (h : k' ≠ k) : lookupA (insertA l k v) k' = lookupA l k' := by
  have h' : ¬ (k = k') := fun hh => h hh.symm
  induction l with
  | nil => simp [insertA, lookupA, h']
  | cons hd tl ih =>
    by_cases hh : hd.1 = k
    · subst hh
      simp [insertA, lookupA, h']
    · by_cases hk : hd.1 = k'
      · simp [insertA, hh, lookupA, hk, h]
      · simp [insertA, hh, lookupA, hk, ih]

lemma lookupA_eraseA_ne {α : Type} (l : List (String × α)) (k k' : String)
    (h : k' ≠ k) : lookupA (eraseA l k) k' = lookupA l k' := by
  have h' : ¬ (k = k') := fun hh => h hh.symm
  induction l with
  | nil => simp [eraseA]
  | cons hd tl ih =>
    by_cases hh : hd.1 = k
    · subst hh
      simp [eraseA, lookupA, h']
    · by_cases hk : hd.1 = k'
      · simp [eraseA, hh, lookupA, hk, h]
      · simp [eraseA, hh, lookupA, hk, ih]

lemma lookupA_eraseA_none {α : Type} (l : List (String × α)) (k k' : String)
    (h : lookupA l k' = none) : lookupA (eraseA l k) k' = none := by
  induction l with
  | nil => simp [eraseA, lookupA]
  | cons hd tl ih =>
    by_cases hk : hd.1 = k'
    · simp [lookupA, hk] at h
    · simp only [lookupA, if_neg hk] at h
      by_cases hh : hd.1 = k
      · simpa [eraseA, hh] using h
      · simp [eraseA, hh, lookupA, hk, ih h]

end Lemmas

/-- Auxiliary: the characterisation of `tpHit` for the buy direction. -/
lemma tpHit_buy_iff (op cp : ℚ) (tp : Option ℚ) :
    tpHit true op cp tp = true ↔ ∃ t, tp = some t ∧ (95 / 100) * (t - op) ≤ cp - op := by
  cases tp with
  | none => simp [tpHit]
  | some t =>
    simp only [tpHit, Option.some.injEq, decide_eq_true_eq, ge_iff_le]
    constructor
    · intro h; exact ⟨t, rfl, by linarith⟩
    · rintro ⟨t', ht', h⟩; cases ht'; linarith

/-- Auxiliary: the characterisation of `slHit` for the buy direction. -/
lemma slHit_buy_iff (op cp : ℚ) (sl : Option ℚ) :
    slHit true op cp sl = true ↔ ∃ l, sl = some l ∧ (95 / 100) * (op - l) ≤ op - cp := by
  cases sl with
  | none => simp [slHit]
  | some l =>
    simp only [slHit, Option.some.injEq, decide_eq_true_eq]
    constructor
    · intro h; exact ⟨l, rfl, by linarith⟩
    · rintro ⟨l', hl', h⟩; cases hl'; linarith

/-- Auxiliary: the characterisation of `tpHit` for the sell direction. -/
lemma tpHit_sell_iff (op cp : ℚ) (tp : Option ℚ) :
    tpHit false op cp tp = true ↔ ∃ t, tp = some t ∧ (95 / 100) * (op - t) ≤ op - cp := by
  cases tp with
  | none => simp [tpHit]
  | some t =>
    simp only [tpHit, Option.some.injEq, decide_eq_true_eq]
    constructor
    · intro h; exact ⟨t, rfl, by linarith⟩
    · rintro ⟨t', ht', h⟩; cases ht'; linarith

/-- Auxiliary: the characterisation of `slHit` for the sell direction. -/
lemma slHit_sell_iff (op cp : ℚ) (sl : Option ℚ) :
    slHit false op cp sl = true ↔ ∃ l, sl = some l ∧ (95 / 100) * (l - op) ≤ cp - op := by
  cases sl with
  | none => simp [slHit]
  | some l =>
    simp only [slHit, Option.some.injEq, decide_eq_true_eq, ge_iff_le]
    constructor
    · intro h; exact ⟨l, rfl, by linarith⟩
    · rintro ⟨l', hl', h⟩; cases hl'; linarith

/-- C2 counterexample: for the integer-formatted open price `5` and delta
`0.567`, `format_delta` rounds to 0 decimals and returns `1`, not the
2-decimal rounding `0.57` that the claim requires. -/
theorem claim2_counterexample :
    format_delta (567 / 1000) (PyNum.int 5) = 1 ∧
    pyRound (567 / 1000) 2 = 57 / 100 ∧
    format_delta (567 / 1000) (PyNum.int 5) ≠ pyRound (567 / 1000) 2 := by
  decide

/-- C2 (amended): `format_delta` rounds the delta to exactly as many
decimal places as appear after the decimal point in the open price's
textual representation, and when that representation contains no decimal
point it rounds to 0 decimal places (the 2-decimal fallback is only the
dead exception path). -/
theorem claim2_rounding (delta : ℚ) (m : ℤ) (e : ℕ) (n : ℤ) :
    format_delta delta (PyNum.dec m e) = pyRound delta e ∧
    format_delta delta (PyNum.int n) = pyRound delta 0 := by
  exact ⟨rfl, rfl⟩

/-- Auxiliary: the delta component of `classifyClose`. -/
lemma classifyClose_fst (op cp : ℚ) (tp sl : Option ℚ) (tt : String) :
    (classifyClose op tp sl tt cp).1 =
      if pyIn "buy" (pyLower tt) then cp - op else op - cp := rfl

/-- Auxiliary: the reason component of `classifyClose`. -/
lemma classifyClose_snd (op cp : ℚ) (tp sl : Option ℚ) (tt : String) :
    (classifyClose op tp sl tt cp).2 =
      if tpHit (pyIn "buy" (pyLower tt)) op cp tp then "Closed via TP"
      else if slHit (pyIn "buy" (pyLower tt)) op cp sl then "Closed via SL"
      else "Manual Closing" := rfl

/-- Auxiliary: when the classification cascade yields "Closed via TP". -/
lemma reasonIte_eq_TP (c1 c2 : Bool) :
    ((if c1 = true then "Closed via TP"
      else if c2 = true then "Closed via SL" else "Manual Closing") = "Closed via TP")
      ↔ c1 = true := by
  rcases c1 with _ | _ <;> rcases c2 with _ | _ <;> decide

/-- Auxiliary: when the classification cascade yields "Closed via SL". -/
lemma reasonIte_eq_SL (c1 c2 : Bool) :
    ((if c1 = true then "Closed via TP"
      else if c2 = true then "Closed via SL" else "Manual Closing") = "Closed via SL")
      ↔ c1 = false ∧ c2 = true := by
  rcases c1 with _ | _ <;> rcases c2 with _ | _ <;> decide

/-- Auxiliary: when the classification cascade yields "Manual Closing". -/
lemma reasonIte_eq_Manual (c1 c2 : Bool) :
    ((if c1 = true then "Closed via TP"
      else if c2 = true then "Closed via SL" else "Manual Closing") = "Manual Closing")
      ↔ c1 = false ∧ c2 = false := by
  rcases c1 with _ | _ <;> rcases c2 with _ | _ <;> decide

/-- C4: the signed delta is `closing − open` for a long (buy) position and
`open − closing` for a short one; the close is classified take-profit when
TP is set and the closing price has covered at least 95 % of the
open-to-TP distance in the trade's direction, else stop-loss when SL is
set and at least 95 % of the open-to-SL distance is covered, else manual. -/
theorem claim4_close_classification (op cp : ℚ) (tp sl : Option ℚ) (tt : String) :
    (pyIn "buy" (pyLower tt) = true →
      (classifyClose op tp sl tt cp).1 = cp - op ∧
      ((classifyClose op tp sl tt cp).2 = "Closed via TP" ↔
        ∃ t, tp = some t ∧ (95 / 100) * (t - op) ≤ cp - op) ∧
      ((classifyClose op tp sl tt cp).2 = "Closed via SL" ↔
        ¬ (∃ t, tp = some t ∧ (95 / 100) * (t - op) ≤ cp - op) ∧
          ∃ l, sl = some l ∧ (95 / 100) * (op - l) ≤ op - cp) ∧
      ((classifyClose op tp sl tt cp).2 = "Manual Closing" ↔
        ¬ (∃ t, tp = some t ∧ (95 / 100) * (t - op) ≤ cp - op) ∧
        ¬ (∃ l, sl = some l ∧ (95 / 100) * (op - l) ≤ op - cp))) ∧
    (pyIn "buy" (pyLower tt) = false →
      (classifyClose op tp sl tt cp).1 = op - cp ∧
      ((classifyClose op tp sl tt cp).2 = "Closed via TP" ↔
        ∃ t, tp = some t ∧ (95 / 100) * (op - t) ≤ op - cp) ∧
      ((classifyClose op tp sl tt cp).2 = "Closed via SL" ↔
        ¬ (∃ t, tp = some t ∧ (95 / 100) * (op - t) ≤ op - cp) ∧
          ∃ l, sl = some l ∧ (95 / 100) * (l - op) ≤ cp - op) ∧
      ((classifyClose op tp sl tt cp).2 = "Manual Closing" ↔
        ¬ (∃ t, tp = some t ∧ (95 / 100) * (op - t) ≤ op - cp) ∧
        ¬ (∃ l, sl = some l ∧ (95 / 100) * (l - op) ≤ cp - op))) := by
  constructor
  · intro hb
    have htp := tpHit_buy_iff op cp tp
    have hsl := slHit_buy_iff op cp sl
    have hnt : tpHit true op cp tp = false ↔
        ¬ ∃ t, tp = some t ∧ (95 / 100) * (t - op) ≤ cp - op := by
      rw [← htp]; cases tpHit true op cp tp <;> simp
    have hns : slHit true op cp sl = false ↔
        ¬ ∃ l, sl = some l ∧ (95 / 100) * (op - l) ≤ op - cp := by
      rw [← hsl]; cases slHit true op cp sl <;> simp
    rw [classifyClose_fst, classifyClose_snd, hb]
    refine ⟨by simp, ?_, ?_, ?_⟩
    · rw [reasonIte_eq_TP]; exact htp
    · rw [reasonIte_eq_SL]; exact and_congr hnt hsl
    · rw [reasonIte_eq_Manual]; exact and_congr hnt hns
  · intro hb
    have htp := tpHit_sell_iff op cp tp
    have hsl := slHit_sell_iff op cp sl
    have hnt : tpHit false op cp tp = false ↔
        ¬ ∃ t, tp = some t ∧ (95 / 100) * (op - t) ≤ op - cp := by
      rw [← htp]; cases tpHit false op cp tp <;> simp
    have hns : slHit false op cp sl = false ↔
        ¬ ∃ l, sl = some l ∧ (95 / 100) * (l - op) ≤ cp - op := by
      rw [← hsl]; cases slHit false op cp sl <;> simp
    rw [classifyClose_fst, classifyClose_snd, hb]
    refine ⟨by simp, ?_, ?_, ?_⟩
    · rw [reasonIte_eq_TP]; exact htp
    · rw [reasonIte_eq_SL]; exact and_congr hnt hsl
    · rw [reasonIte_eq_Manual]; exact and_congr hnt hns

/-- Auxiliary: fields of the loop state that one closed-position iteration
never changes. -/
lemma processOneClosed_frame (deals : List Deal) (pid : String) (s : MonState) :
    (processOneClosed deals pid s).1.today = s.today ∧
    (processOneClosed deals pid s).1.linkedOrders = s.linkedOrders ∧
    (processOneClosed deals pid s).1.processedOrders = s.processedOrders ∧
    (processOneClosed deals pid s).1.pendingOrderMessages = s.pendingOrderMessages ∧
    (processOneClosed deals pid s).1.pendingDisappearedOrders = s.pendingDisappearedOrders ∧
    (processOneClosed deals pid s).1.triggeredPendingMap = s.triggeredPendingMap ∧
    (processOneClosed deals pid s).1.cancelledOrders = s.cancelledOrders ∧
    (processOneClosed deals pid s).1.lastPositions = s.lastPositions ∧
    (processOneClosed deals pid s).1.lastPendingOrders = s.lastPendingOrders ∧
    (processOneClosed deals pid s).1.lastStatusUpdateTime = s.lastStatusUpdateTime := by
  unfold processOneClosed processOneClosedCore update_pinned_message
  split
  · dsimp only
    split <;> simp
  · simp

/-- Auxiliary: fields of the loop state that the closed-position loop never
changes. -/
lemma closeLoop_frame (deals : List Deal) :
    ∀ (ids : List String) (s : MonState),
    (closeLoop deals ids s).1.today = s.today ∧
    (closeLoop deals ids s).1.linkedOrders = s.linkedOrders ∧
    (closeLoop deals ids s).1.processedOrders = s.processedOrders ∧
    (closeLoop deals ids s).1.pendingOrderMessages = s.pendingOrderMessages ∧
    (closeLoop deals ids s).1.pendingDisappearedOrders = s.pendingDisappearedOrders ∧
    (closeLoop deals ids s).1.triggeredPendingMap = s.triggeredPendingMap ∧
    (closeLoop deals ids s).1.cancelledOrders = s.cancelledOrders ∧
    (closeLoop deals ids s).1.lastPositions = s.lastPositions ∧
    (closeLoop deals ids s).1.lastPendingOrders = s.lastPendingOrders ∧
    (closeLoop deals ids s).1.lastStatusUpdateTime = s.lastStatusUpdateTime
  | [], s => by simp [closeLoop]
  | pid :: rest, s => by
    obtain ⟨a1, a2, a3, a4, a5, a6, a7, a8, a9, a10⟩ :=
      processOneClosed_frame deals pid s
    obtain ⟨b1, b2, b3, b4, b5, b6, b7, b8, b9, b10⟩ :=
      closeLoop_frame deals rest (processOneClosed deals pid s).1
    simp only [closeLoop]
    exact ⟨b1.trans a1, b2.trans a2, b3.trans a3, b4.trans a4, b5.trans a5,
      b6.trans a6, b7.trans a7, b8.trans a8, b9.trans a9, b10.trans a10⟩

/-- Auxiliary: fields a fast-path/enqueue iteration never changes. -/
lemma disappearedStep_frame (now : ℚ) (curPos : List (String × PosData))
    (oid : String) (s : MonState) (u : Bool) :
    (disappearedStep now curPos oid s u).1.today = s.today ∧
    (disappearedStep now curPos oid s u).1.dailyClosedPositions = s.dailyClosedPositions ∧
    (disappearedStep now curPos oid s u).1.dailyPoints = s.dailyPoints ∧
    (disappearedStep now curPos oid s u).1.pinnedMessageId = s.pinnedMessageId ∧
    (disappearedStep now curPos oid s u).1.lastStatusUpdateTime = s.lastStatusUpdateTime ∧
    (disappearedStep now curPos oid s u).1.pendingOrderMessages = s.pendingOrderMessages ∧
    (disappearedStep now curPos oid s u).1.cancelledOrders = s.cancelledOrders ∧
    (disappearedStep now curPos oid s u).1.lastPositions = s.lastPositions ∧
    (disappearedStep now curPos oid s u).1.lastPendingOrders = s.lastPendingOrders := by
  unfold disappearedStep linkTriggered
  split_ifs <;> simp

/-- Auxiliary: fields the disappeared-order loop never changes. -/
lemma disappearedLoop_frame (now : ℚ) (curPos : List (String × PosData)) :
    ∀ (ids : List String) (s : MonState) (u : Bool),
    (disappearedLoop now curPos ids s u).1.today = s.today ∧
    (disappearedLoop now curPos ids s u).1.dailyClosedPositions = s.dailyClosedPositions ∧
    (disappearedLoop now curPos ids s u).1.dailyPoints = s.dailyPoints ∧
    (disappearedLoop now curPos ids s u).1.pinnedMessageId = s.pinnedMessageId ∧
    (disappearedLoop now curPos ids s u).1.lastStatusUpdateTime = s.lastStatusUpdateTime ∧
    (disappearedLoop now curPos ids s u).1.pendingOrderMessages = s.pendingOrderMessages ∧
    (disappearedLoop now curPos ids s u).1.cancelledOrders = s.cancelledOrders ∧
    (disappearedLoop now curPos ids s u).1.lastPositions = s.lastPositions ∧
    (disappearedLoop now curPos ids s u).1.lastPendingOrders = s.lastPendingOrders
  | [], s, u => by simp [disappearedLoop]
  | oid :: rest, s, u => by
    obtain ⟨a1, a2, a3, a4, a5, a6, a7, a8, a9⟩ :=
      disappearedStep_frame now curPos oid s u
    obtain ⟨b1, b2, b3, b4, b5, b6, b7, b8, b9⟩ :=
      disappearedLoop_frame now curPos rest (disappearedStep now curPos oid s u).1
        (disappearedStep now curPos oid s u).2.2
    simp only [disappearedLoop]
    exact ⟨b1.trans a1, b2.trans a2, b3.trans a3, b4.trans a4, b5.trans a5,
      b6.trans a6, b7.trans a7, b8.trans a8, b9.trans a9⟩

/-- Auxiliary: fields a delayed-queue iteration never changes. -/
lemma queueStep_frame (curPos : List (String × PosData)) (oid : String)
    (s : MonState) (u : Bool) :
    (queueStep curPos oid s u).1.today = s.today ∧
    (queueStep curPos oid s u).1.dailyClosedPositions = s.dailyClosedPositions ∧
    (queueStep curPos oid s u).1.dailyPoints = s.dailyPoints ∧
    (queueStep curPos oid s u).1.pinnedMessageId = s.pinnedMessageId ∧
    (queueStep curPos oid s u).1.lastStatusUpdateTime = s.lastStatusUpdateTime ∧
    (queueStep curPos oid s u).1.lastPositions = s.lastPositions ∧
    (queueStep curPos oid s u).1.lastPendingOrders = s.lastPendingOrders := by
  unfold queueStep linkTriggered
  split_ifs <;> simp

/-- Auxiliary: fields the delayed-queue loop never changes. -/
lemma queueLoop_frame (curPos : List (String × PosData)) :
    ∀ (ids : List String) (s : MonState) (u : Bool),
    (queueLoop curPos ids s u).1.today = s.today ∧
    (queueLoop curPos ids s u).1.dailyClosedPositions = s.dailyClosedPositions ∧
    (queueLoop curPos ids s u).1.dailyPoints = s.dailyPoints ∧
    (queueLoop curPos ids s u).1.pinnedMessageId = s.pinnedMessageId ∧
    (queueLoop curPos ids s u).1.lastStatusUpdateTime = s.lastStatusUpdateTime ∧
    (queueLoop curPos ids s u).1.lastPositions = s.lastPositions ∧
    (queueLoop curPos ids s u).1.lastPendingOrders = s.lastPendingOrders
  | [], s, u => by simp [queueLoop]
  | oid :: rest, s, u => by
    obtain ⟨a1, a2, a3, a4, a5, a6, a7⟩ := queueStep_frame curPos oid s u
    obtain ⟨b1, b2, b3, b4, b5, b6, b7⟩ :=
      queueLoop_frame curPos rest (queueStep curPos oid s u).1
        (queueStep curPos oid s u).2.2
    simp only [queueLoop]
    exact ⟨b1.trans a1, b2.trans a2, b3.trans a3, b4.trans a4, b5.trans a5,
      b6.trans a6, b7.trans a7⟩

/-- Auxiliary: fields a new-position iteration never changes. -/
lemma newPosStep_frame (curPos : List (String × PosData))
    (curOrd : List (String × OrdData)) (pid : String) (s : MonState) (u : Bool) :
    (newPosStep curPos curOrd pid s u).1.today = s.today ∧
    (newPosStep curPos curOrd pid s u).1.dailyClosedPositions = s.dailyClosedPositions ∧
    (newPosStep curPos curOrd pid s u).1.dailyPoints = s.dailyPoints ∧
    (newPosStep curPos curOrd pid s u).1.pinnedMessageId = s.pinnedMessageId ∧
    (newPosStep curPos curOrd pid s u).1.lastStatusUpdateTime = s.lastStatusUpdateTime ∧
    (newPosStep curPos curOrd pid s u).1.pendingOrderMessages = s.pendingOrderMessages ∧
    (newPosStep curPos curOrd pid s u).1.pendingDisappearedOrders = s.pendingDisappearedOrders ∧
    (newPosStep curPos curOrd pid s u).1.cancelledOrders = s.cancelledOrders ∧
    (newPosStep curPos curOrd pid s u).1.lastPositions = s.lastPositions ∧
    (newPosStep curPos curOrd pid s u).1.lastPendingOrders = s.lastPendingOrders := by
  unfold newPosStep linkTriggered
  split_ifs <;> simp

/-- Auxiliary: fields the new-position loop never changes. -/
lemma newPosLoop_frame (curPos : List (String × PosData))
    (curOrd : List (String × OrdData)) :
    ∀ (ids : List String) (s : MonState) (u : Bool),
    (newPosLoop curPos curOrd ids s u).1.today = s.today ∧
    (newPosLoop curPos curOrd ids s u).1.dailyClosedPositions = s.dailyClosedPositions ∧
    (newPosLoop curPos curOrd ids s u).1.dailyPoints = s.dailyPoints ∧
    (newPosLoop curPos curOrd ids s u).1.pinnedMessageId = s.pinnedMessageId ∧
    (newPosLoop curPos curOrd ids s u).1.lastStatusUpdateTime = s.lastStatusUpdateTime ∧
    (newPosLoop curPos curOrd ids s u).1.pendingOrderMessages = s.pendingOrderMessages ∧
    (newPosLoop curPos curOrd ids s u).1.pendingDisappearedOrders = s.pendingDisappearedOrders ∧
    (newPosLoop curPos curOrd ids s u).1.cancelledOrders = s.cancelledOrders ∧
    (newPosLoop curPos curOrd ids s u).1.lastPositions = s.lastPositions ∧
    (newPosLoop curPos curOrd ids s u).1.lastPendingOrders = s.lastPendingOrders
  | [], s, u => by simp [newPosLoop]
  | pid :: rest, s, u => by
    obtain ⟨a1, a2, a3, a4, a5, a6, a7, a8, a9, a10⟩ :=
      newPosStep_frame curPos curOrd pid s u
    obtain ⟨b1, b2, b3, b4, b5, b6, b7, b8, b9, b10⟩ :=
      newPosLoop_frame curPos curOrd rest (newPosStep curPos curOrd pid s u).1
        (newPosStep curPos curOrd pid s u).2.2
    simp only [newPosLoop]
    exact ⟨b1.trans a1, b2.trans a2, b3.trans a3, b4.trans a4, b5.trans a5,
      b6.trans a6, b7.trans a7, b8.trans a8, b9.trans a9, b10.trans a10⟩

/-- Auxiliary: fields a new-pending-order iteration never changes. -/
lemma newPendStep_frame (curOrd : List (String × OrdData)) (oid : String)
    (s : MonState) (u : Bool) :
    (newPendStep curOrd oid s u).1.today = s.today ∧
    (newPendStep curOrd oid s u).1.dailyClosedPositions = s.dailyClosedPositions ∧
    (newPendStep curOrd oid s u).1.dailyPoints = s.dailyPoints ∧
    (newPendStep curOrd oid s u).1.pinnedMessageId = s.pinnedMessageId ∧
    (newPendStep curOrd oid s u).1.lastStatusUpdateTime = s.lastStatusUpdateTime ∧
    (newPendStep curOrd oid s u).1.linkedOrders = s.linkedOrders ∧
    (newPendStep curOrd oid s u).1.processedOrders = s.processedOrders ∧
    (newPendStep curOrd oid s u).1.pendingDisappearedOrders = s.pendingDisappearedOrders ∧
    (newPendStep curOrd oid s u).1.positionMessages = s.positionMessages ∧
    (newPendStep curOrd oid s u).1.triggeredPendingMap = s.triggeredPendingMap ∧
    (newPendStep curOrd oid s u).1.cancelledOrders = s.cancelledOrders ∧
    (newPendStep curOrd oid s u).1.lastPositions = s.lastPositions ∧
    (newPendStep curOrd oid s u).1.lastPendingOrders = s.lastPendingOrders := by
  unfold newPendStep
  split_ifs <;> simp

/-- Auxiliary: fields the new-pending-order loop never changes. -/
lemma newPendLoop_frame (curOrd : List (String × OrdData)) :
    ∀ (ids : List String) (s : MonState) (u : Bool),
    (newPendLoop curOrd ids s u).1.today = s.today ∧
    (newPendLoop curOrd ids s u).1.dailyClosedPositions = s.dailyClosedPositions ∧
    (newPendLoop curOrd ids s u).1.dailyPoints = s.dailyPoints ∧
    (newPendLoop curOrd ids s u).1.pinnedMessageId = s.pinnedMessageId ∧
    (newPendLoop curOrd ids s u).1.lastStatusUpdateTime = s.lastStatusUpdateTime ∧
    (newPendLoop curOrd ids s u).1.linkedOrders = s.linkedOrders ∧
    (newPendLoop curOrd ids s u).1.processedOrders = s.processedOrders ∧
    (newPendLoop curOrd ids s u).1.pendingDisappearedOrders = s.pendingDisappearedOrders ∧
    (newPendLoop curOrd ids s u).1.positionMessages = s.positionMessages ∧
    (newPendLoop curOrd ids s u).1.triggeredPendingMap = s.triggeredPendingMap ∧
    (newPendLoop curOrd ids s u).1.cancelledOrders = s.cancelledOrders ∧
    (newPendLoop curOrd ids s u).1.lastPositions = s.lastPositions ∧
    (newPendLoop curOrd ids s u).1.lastPendingOrders = s.lastPendingOrders
  | [], s, u => by simp [newPendLoop]
  | oid :: rest, s, u => by
    obtain ⟨a1, a2, a3, a4, a5, a6, a7, a8, a9, a10, a11, a12, a13⟩ :=
      newPendStep_frame curOrd oid s u
    obtain ⟨b1, b2, b3, b4, b5, b6, b7, b8, b9, b10, b11, b12, b13⟩ :=
      newPendLoop_frame curOrd rest (newPendStep curOrd oid s u).1
        (newPendStep curOrd oid s u).2.2
    simp only [newPendLoop]
    exact ⟨b1.trans a1, b2.trans a2, b3.trans a3, b4.trans a4, b5.trans a5,
      b6.trans a6, b7.trans a7, b8.trans a8, b9.trans a9, b10.trans a10,
      b11.trans a11, b12.trans a12, b13.trans a13⟩

/-- Auxiliary: fields the end-of-tick refresh never changes. -/
lemma endRefresh_frame (now : ℚ) (u : Bool) (s : MonState) :
    (endRefresh now u s).1.today = s.today ∧
    (endRefresh now u s).1.dailyClosedPositions = s.dailyClosedPositions ∧
    (endRefresh now u s).1.dailyPoints = s.dailyPoints ∧
    (endRefresh now u s).1.linkedOrders = s.linkedOrders ∧
    (endRefresh now u s).1.processedOrders = s.processedOrders ∧
    (endRefresh now u s).1.pendingOrderMessages = s.pendingOrderMessages ∧
    (endRefresh now u s).1.pendingDisappearedOrders = s.pendingDisappearedOrders ∧
    (endRefresh now u s).1.positionMessages = s.positionMessages ∧
    (endRefresh now u s).1.triggeredPendingMap = s.triggeredPendingMap ∧
    (endRefresh now u s).1.cancelledOrders = s.cancelledOrders ∧
    (endRefresh now u s).1.lastPositions = s.lastPositions ∧
    (endRefresh now u s).1.lastPendingOrders = s.lastPendingOrders := by
  unfold endRefresh update_pinned_message
  split_ifs <;> simp

/-- Auxiliary: the state handover sets the snapshot maps and changes at
most the processed-order set besides. -/
lemma finalizeTick_frame (curPos : List (String × PosData))
    (curOrd : List (String × OrdData)) (s : MonState) :
    (finalizeTick curPos curOrd s).lastPositions = curPos ∧
    (finalizeTick curPos curOrd s).lastPendingOrders = curOrd ∧
    (finalizeTick curPos curOrd s).today = s.today ∧
    (finalizeTick curPos curOrd s).dailyClosedPositions = s.dailyClosedPositions ∧
    (finalizeTick curPos curOrd s).dailyPoints = s.dailyPoints ∧
    (finalizeTick curPos curOrd s).pinnedMessageId = s.pinnedMessageId ∧
    (finalizeTick curPos curOrd s).lastStatusUpdateTime = s.lastStatusUpdateTime ∧
    (finalizeTick curPos curOrd s).linkedOrders = s.linkedOrders ∧
    (finalizeTick curPos curOrd s).pendingOrderMessages = s.pendingOrderMessages ∧
    (finalizeTick curPos curOrd s).pendingDisappearedOrders = s.pendingDisappearedOrders ∧
    (finalizeTick curPos curOrd s).positionMessages = s.positionMessages ∧
    (finalizeTick curPos curOrd s).triggeredPendingMap = s.triggeredPendingMap ∧
    (finalizeTick curPos curOrd s).cancelledOrders = s.cancelledOrders := by
  unfold finalizeTick
  dsimp only
  split_ifs <;> simp

/-- Auxiliary: fields the day-rollover check never changes. -/
lemma rollover_frame (d : ℤ) (s : MonState) :
    (rollover d s).lastPositions = s.lastPositions ∧
    (rollover d s).lastPendingOrders = s.lastPendingOrders ∧
    (rollover d s).positionMessages = s.positionMessages ∧
    (rollover d s).pendingOrderMessages = s.pendingOrderMessages ∧
    (rollover d s).triggeredPendingMap = s.triggeredPendingMap ∧
    (rollover d s).processedOrders = s.processedOrders ∧
    (rollover d s).linkedOrders = s.linkedOrders ∧
    (rollover d s).pendingDisappearedOrders = s.pendingDisappearedOrders ∧
    (rollover d s).lastStatusUpdateTime = s.lastStatusUpdateTime ∧
    (rollover d s).nextMsgId = s.nextMsgId := by
  unfold rollover
  split_ifs <;> simp

/-- Auxiliary: the day key stored after the rollover check is always the
tick's wall-clock day. -/
lemma rollover_today (d : ℤ) (s : MonState) : (rollover d s).today = d := by
  unfold rollover
  split_ifs with h
  · rfl
  · exact (not_ne_iff.mp h).symm

/-- Auxiliary: the day key after a tick is the tick's wall-clock day. -/
lemma tick_today (s : MonState) (snap : Snapshot) :
    (tick s snap).1.today = snap.day := by
  simp only [tick]
  rw [(finalizeTick_frame _ _ _).2.2.1]
  rw [(endRefresh_frame _ _ _).1]
  rw [(newPendLoop_frame _ _ _ _).1]
  rw [(newPosLoop_frame _ _ _ _ _).1]
  rw [(queueLoop_frame _ _ _ _).1]
  rw [(disappearedLoop_frame _ _ _ _ _).1]
  rw [(closeLoop_frame _ _ _).1]
  exact rollover_today snap.day s

/-- Auxiliary: the tracked position map after a tick is exactly the one
built from the tick's snapshot against the previous map. -/
lemma tick_lastPositions (s : MonState) (snap : Snapshot) :
    (tick s snap).1.lastPositions =
      buildCurrentPositions s.lastPositions snap.positions [] := by
  simp only [tick]
  rw [(finalizeTick_frame _ _ _).1, (rollover_frame snap.day s).1]

/-- C7: the daily ledger is reset to empty/zero exactly on a tick whose
wall-clock date differs from the stored day key, the same rollover clears
the pinned-summary id, the stored day key always ends up as the tick's
date, and a subsequent same-day tick performs no reset. -/
theorem claim7_daily_ledger_reset (s : MonState) (snap snap2 : Snapshot) :
    (snap.day ≠ s.today →
      (rollover snap.day s).dailyClosedPositions = [] ∧
      (rollover snap.day s).dailyPoints = 0 ∧
      (rollover snap.day s).cancelledOrders = [] ∧
      (rollover snap.day s).pinnedMessageId = none ∧
      (rollover snap.day s).today = snap.day) ∧
    (snap.day = s.today → rollover snap.day s = s) ∧
    (tick s snap).1.today = snap.day ∧
    (snap2.day = snap.day → rollover snap2.day (tick s snap).1 = (tick s snap).1) := by
  refine ⟨?_, ?_, tick_today s snap, ?_⟩
  · intro h
    unfold rollover
    rw [if_pos h]
    exact ⟨rfl, rfl, rfl, rfl, rfl⟩
  · intro h
    unfold rollover
    rw [if_neg (not_ne_iff.mpr h)]
  · intro h
    have hn : ¬ (snap2.day ≠ (tick s snap).1.today) := by
      rw [tick_today]
      exact not_ne_iff.mpr h
    unfold rollover
    rw [if_neg hn]

/-- C7 witness: from a fresh day-0 state, a day-1 tick resets the ledger
and clears the pinned id, and a second day-1 tick does not reset again. -/
theorem claim7_witness :
    ((1 : ℤ) ≠ (initState 0).today) ∧
    (rollover (1 : ℤ) (initState 0)).dailyPoints = 0 ∧
    (rollover (1 : ℤ) (initState 0)).pinnedMessageId = none ∧
    (tick (initState 0) ⟨1, 0, [], [], []⟩).1.today = 1 ∧
    ((1 : ℤ) = (⟨1, 0, [], [], []⟩ : Snapshot).day →
      rollover (1 : ℤ) (tick (initState 0) ⟨1, 0, [], [], []⟩).1 =
        (tick (initState 0) ⟨1, 0, [], [], []⟩).1) := by
  have h := claim7_daily_ledger_reset (initState 0) ⟨1, 0, [], [], []⟩ ⟨1, 5, [], [], []⟩
  have h1 : ((⟨1, 0, [], [], []⟩ : Snapshot).day ≠ (initState 0).today) := by decide
  exact ⟨h1, (h.1 h1).2.1, (h.1 h1).2.2.2.1, h.2.2.1, fun hh => h.2.2.2 hh⟩

/-- Running point total recorded in the closed-position ledger entries. -/
def sumPoints (l : List ClosedRec) : ℚ :=
  (l.map ClosedRec.points).sum

/-- Auxiliary: one closed-position iteration keeps the running total equal
to the sum of the ledger entries (a successful close adds the same rounded
delta to both, the degraded branches touch neither). -/
lemma processOneClosed_ledger (deals : List Deal) (pid : String) (s : MonState)
    (h : s.dailyPoints = sumPoints s.dailyClosedPositions) :
    (processOneClosed deals pid s).1.dailyPoints =
      sumPoints (processOneClosed deals pid s).1.dailyClosedPositions := by
  unfold processOneClosed processOneClosedCore update_pinned_message
  split
  · dsimp only
    split
    · simp [sumPoints, h]
    · simpa [sumPoints] using h
  · simpa [sumPoints] using h

/-- Auxiliary: the closed-position loop preserves ledger consistency. -/
lemma closeLoop_ledger (deals : List Deal) :
    ∀ (ids : List String) (s : MonState),
    s.dailyPoints = sumPoints s.dailyClosedPositions →
    (closeLoop deals ids s).1.dailyPoints =
      sumPoints (closeLoop deals ids s).1.dailyClosedPositions
  | [], s, h => by simpa [closeLoop] using h
  | pid :: rest, s, h => by
    simp only [closeLoop]
    exact closeLoop_ledger deals rest _ (processOneClosed_ledger deals pid s h)

/-- C10: a tick preserves the invariant that the running daily point total
equals the sum of the `points` fields of the daily closed-position ledger;
the rollover reset re-establishes it trivially. -/
theorem claim10_points_total_consistent (s : MonState) (snap : Snapshot)
    (h : s.dailyPoints = sumPoints s.dailyClosedPositions) :
    (tick s snap).1.dailyPoints =
      sumPoints (tick s snap).1.dailyClosedPositions := by
  have h0 : (rollover snap.day s).dailyPoints =
      sumPoints (rollover snap.day s).dailyClosedPositions := by
    unfold rollover
    split_ifs
    · simp [sumPoints]
    · exact h
  simp only [tick]
  rw [(finalizeTick_frame _ _ _).2.2.2.2.1, (finalizeTick_frame _ _ _).2.2.2.1]
  rw [(endRefresh_frame _ _ _).2.2.1, (endRefresh_frame _ _ _).2.1]
  rw [(newPendLoop_frame _ _ _ _).2.2.1, (newPendLoop_frame _ _ _ _).2.1]
  rw [(newPosLoop_frame _ _ _ _ _).2.2.1, (newPosLoop_frame _ _ _ _ _).2.1]
  rw [(queueLoop_frame _ _ _ _).2.2.1, (queueLoop_frame _ _ _ _).2.1]
  rw [(disappearedLoop_frame _ _ _ _ _).2.2.1, (disappearedLoop_frame _ _ _ _ _).2.1]
  exact closeLoop_ledger snap.deals _ _ h0

/-- C10 witness: the invariant holds for the fresh state and is preserved
by a tick that closes the one open position (open 1.0, closing 1.5, a
manual close recording 0.5 points). -/
theorem claim10_witness :
    (⟨[("P1", ⟨some (.dec 10 1), none, none, "POSITION_TYPE_BUY", "EURUSD", none⟩)],
        [], [], [], [], [], [], [], none, 0, 0, [], 0, [], 1⟩ : MonState).dailyPoints =
      sumPoints (⟨[("P1", ⟨some (.dec 10 1), none, none, "POSITION_TYPE_BUY", "EURUSD", none⟩)],
        [], [], [], [], [], [], [], none, 0, 0, [], 0, [], 1⟩ : MonState).dailyClosedPositions ∧
    (tick ⟨[("P1", ⟨some (.dec 10 1), none, none, "POSITION_TYPE_BUY", "EURUSD", none⟩)],
        [], [], [], [], [], [], [], none, 0, 0, [], 0, [], 1⟩
      ⟨0, 0, [], [], [⟨some "P1", some "DEAL_ENTRY_OUT", some (15 / 10)⟩]⟩).1.dailyPoints =
      sumPoints (tick ⟨[("P1", ⟨some (.dec 10 1), none, none, "POSITION_TYPE_BUY", "EURUSD", none⟩)],
        [], [], [], [], [], [], [], none, 0, 0, [], 0, [], 1⟩
      ⟨0, 0, [], [], [⟨some "P1", some "DEAL_ENTRY_OUT", some (15 / 10)⟩]⟩).1.dailyClosedPositions := by
  refine ⟨rfl, claim10_points_total_consistent _ _ rfl⟩

/-- C9 (amended): for a tracked position reported again by the broker, the
stored originating-order id is replaced by the newly reported one exactly
when the stored id is falsy — `None` or the empty string — and kept
otherwise. -/
theorem claim9_orderid_refresh (s : MonState) (snap : Snapshot) (pid : String)
    (d : PosData) (rp : RawPosition)
    (hsnap : snap.positions = [rp]) (hid : rp.pid = some pid) (hne : pid ≠ "")
    (hl : lookupA s.lastPositions pid = some d) :
    lookupA (tick s snap).1.lastPositions pid =
      some { d with orderId := pyOrStr d.orderId rp.orderId } ∧
    (pyTruthy d.orderId = true → pyOrStr d.orderId rp.orderId = d.orderId) ∧
    (d.orderId = none → pyOrStr d.orderId rp.orderId = rp.orderId) ∧
    (d.orderId = some "" → pyOrStr d.orderId rp.orderId = rp.orderId) := by
  refine ⟨?_, ?_, ?_, ?_⟩
  · rw [tick_lastPositions, hsnap]
    have ht : pyTruthy (some pid) = true := by
      simp [pyTruthy, hne]
    simp [buildCurrentPositions, ht, hid, hl, insertA, lookupA]
  · intro ht
    unfold pyOrStr
    rw [if_pos ht]
  · intro hn
    simp [pyOrStr, pyTruthy, hn]
  · intro he
    simp [pyOrStr, pyTruthy, he]

/-- C9 counterexample: a stored empty-string order id — which is not
`None` — is nevertheless replaced by the newly reported id `"42"`,
because the source uses Python `or`, which treats `""` as falsy. -/
theorem claim9_counterexample :
    lookupA (buildCurrentPositions
        [("P1", (⟨some (.int 1), none, none, "t", "s", some ""⟩ : PosData))]
        [⟨some "P1", some (.int 2), some 3, none, "t2", "s2", some "42"⟩] [])
        "P1" =
      some ⟨some (.int 1), none, none, "t", "s", some "42"⟩ ∧
    (some "" : Option String) ≠ none ∧
    (some "42" : Option String) ≠ some "" := by
  decide

/-- C9 witness: a position first observed without an originating-order id
adopts the id reported by a later snapshot. -/
theorem claim9_witness :
    lookupA (tick
        ⟨[("P1", ⟨some (.int 1), none, none, "t", "s", none⟩)],
          [], [], [], [], [], [], [], none, 0, 0, [], 0, [], 1⟩
        ⟨0, 0, [⟨some "P1", some (.int 1), none, none, "t", "s", some "42"⟩], [], []⟩).1.lastPositions
        "P1" =
      some ⟨some (.int 1), none, none, "t", "s", some "42"⟩ ∧
    pyOrStr none (some "42") = some "42" := by
  have h := claim9_orderid_refresh
    ⟨[("P1", ⟨some (.int 1), none, none, "t", "s", none⟩)],
      [], [], [], [], [], [], [], none, 0, 0, [], 0, [], 1⟩
    ⟨0, 0, [⟨some "P1", some (.int 1), none, none, "t", "s", some "42"⟩], [], []⟩
    "P1" ⟨some (.int 1), none, none, "t", "s", none⟩
    ⟨some "P1", some (.int 1), none, none, "t", "s", some "42"⟩
    rfl rfl (by decide) (by decide)
  exact ⟨h.1, h.2.2.1 rfl⟩

/-- Whether a message is a summary (pinned status) update. -/
def isStatus : Msg → Bool
  | .statusUpdate => true
  | _ => false

/-- Auxiliary: one closed-position iteration emits exactly one
close-related message for its id, immediately followed by one summary
update. -/
lemma processOneClosed_shape (deals : List Deal) (pid : String) (s : MonState) :
    ∃ m, (processOneClosed deals pid s).2 = [m, Msg.statusUpdate] ∧
      (∀ t, isCloseFor t m = (pid == t)) ∧
      isStatus m = false ∧
      (∀ o, isTriggeredFor o m = false) ∧
      (∀ o, isCanceledFor o m = false) := by
  unfold processOneClosed processOneClosedCore
  split
  · dsimp only
    split
    · exact ⟨_, rfl, fun t => rfl, rfl, fun o => rfl, fun o => rfl⟩
    · exact ⟨_, rfl, fun t => rfl, rfl, fun o => rfl, fun o => rfl⟩
  · exact ⟨_, rfl, fun t => rfl, rfl, fun o => rfl, fun o => rfl⟩

/-- Auxiliary: messages of a fast-path/enqueue iteration are triggered
notices for the iterated id only. -/
lemma disappearedStep_msgs (now : ℚ) (cp : List (String × PosData)) (oid : String)
    (s : MonState) (u : Bool) :
    (disappearedStep now cp oid s u).2.1 = [] ∨
    ∃ sym r, (disappearedStep now cp oid s u).2.1 = [Msg.triggeredNotice oid sym r] := by
  unfold disappearedStep linkTriggered
  split_ifs <;> simp

/-- Auxiliary: messages of a delayed-queue iteration are triggered or
cancellation notices for the iterated id only. -/
lemma queueStep_msgs (cp : List (String × PosData)) (oid : String)
    (s : MonState) (u : Bool) :
    (queueStep cp oid s u).2.1 = [] ∨
    (∃ sym r, (queueStep cp oid s u).2.1 = [Msg.triggeredNotice oid sym r]) ∨
    (∃ sym r, (queueStep cp oid s u).2.1 = [Msg.canceledNotice oid sym r]) := by
  unfold queueStep linkTriggered
  split_ifs <;> simp

/-- Auxiliary: messages of a new-position iteration are triggered or
new-position notices for the iterated id only. -/
lemma newPosStep_msgs (cp : List (String × PosData)) (co : List (String × OrdData))
    (pid : String) (s : MonState) (u : Bool) :
    (newPosStep cp co pid s u).2.1 = [] ∨
    (∃ sym r, (newPosStep cp co pid s u).2.1 = [Msg.triggeredNotice pid sym r]) ∨
    (∃ sym, (newPosStep cp co pid s u).2.1 = [Msg.newPositionNotice pid sym]) := by
  unfold newPosStep linkTriggered
  split_ifs <;> simp

/-- Auxiliary: messages of a new-pending-order iteration are pending
notices only. -/
lemma newPendStep_msgs (co : List (String × OrdData)) (oid : String)
    (s : MonState) (u : Bool) :
    (newPendStep co oid s u).2.1 = [] ∨
    ∃ sym, (newPendStep co oid s u).2.1 = [Msg.pendingNotice oid sym] := by
  unfold newPendStep
  split_ifs <;> simp

/-- Auxiliary: the end-of-tick refresh emits at most a summary update. -/
lemma endRefresh_msgs (now : ℚ) (u : Bool) (s : MonState) :
    (endRefresh now u s).2 = [] ∨ (endRefresh now u s).2 = [Msg.statusUpdate] := by
  unfold endRefresh
  split_ifs <;> simp

/-- Auxiliary: count of close-related/summary-free predicates over the
disappeared-order loop is zero when the predicate rejects triggered
notices. -/
lemma disappearedLoop_countP (p : Msg → Bool)
    (hp : ∀ o sym r, p (Msg.triggeredNotice o sym r) = false)
    (now : ℚ) (cp : List (String × PosData)) :
    ∀ (ids : List String) (s : MonState) (u : Bool),
    ((disappearedLoop now cp ids s u).2.1).countP p = 0
  | [], s, u => rfl
  | oid :: rest, s, u => by
    simp only [disappearedLoop, List.countP_append]
    have h2 := disappearedLoop_countP p hp now cp rest
      (disappearedStep now cp oid s u).1 (disappearedStep now cp oid s u).2.2
    rcases disappearedStep_msgs now cp oid s u with h | ⟨sym, r, h⟩ <;>
      simp [h, h2, List.countP_cons, hp]

/-- Auxiliary: predicates rejecting triggered and cancellation notices
count zero over the delayed-queue loop. -/
lemma queueLoop_countP (p : Msg → Bool)
    (hp1 : ∀ o sym r, p (Msg.triggeredNotice o sym r) = false)
    (hp2 : ∀ o sym r, p (Msg.canceledNotice o sym r) = false)
    (cp : List (String × PosData)) :
    ∀ (ids : List String) (s : MonState) (u : Bool),
    ((queueLoop cp ids s u).2.1).countP p = 0
  | [], s, u => rfl
  | oid :: rest, s, u => by
    simp only [queueLoop, List.countP_append]
    have h2 := queueLoop_countP p hp1 hp2 cp rest
      (queueStep cp oid s u).1 (queueStep cp oid s u).2.2
    rcases queueStep_msgs cp oid s u with h | ⟨sym, r, h⟩ | ⟨sym, r, h⟩ <;>
      simp [h, h2, List.countP_cons, hp1, hp2]

/-- Auxiliary: predicates rejecting triggered and new-position notices
count zero over the new-position loop. -/
lemma newPosLoop_countP (p : Msg → Bool)
    (hp1 : ∀ o sym r, p (Msg.triggeredNotice o sym r) = false)
    (hp2 : ∀ o sym, p (Msg.newPositionNotice o sym) = false)
    (cp : List (String × PosData)) (co : List (String × OrdData)) :
    ∀ (ids : List String) (s : MonState) (u : Bool),
    ((newPosLoop cp co ids s u).2.1).countP p = 0
  | [], s, u => rfl
  | pid :: rest, s, u => by
    simp only [newPosLoop, List.countP_append]
    have h2 := newPosLoop_countP p hp1 hp2 cp co rest
      (newPosStep cp co pid s u).1 (newPosStep cp co pid s u).2.2
    rcases newPosStep_msgs cp co pid s u with h | ⟨sym, r, h⟩ | ⟨sym, h⟩ <;>
      simp [h, h2, List.countP_cons, hp1, hp2]

/-- Auxiliary: predicates rejecting pending notices count zero over the
new-pending-order loop. -/
lemma newPendLoop_countP (p : Msg → Bool)
    (hp : ∀ o sym, p (Msg.pendingNotice o sym) = false)
    (co : List (String × OrdData)) :
    ∀ (ids : List String) (s : MonState) (u : Bool),
    ((newPendLoop co ids s u).2.1).countP p = 0
  | [], s, u => rfl
  | oid :: rest, s, u => by
    simp only [newPendLoop, List.countP_append]
    have h2 := newPendLoop_countP p hp co rest
      (newPendStep co oid s u).1 (newPendStep co oid s u).2.2
    rcases newPendStep_msgs co oid s u with h | ⟨sym, h⟩ <;>
      simp [h, h2, List.countP_cons, hp]

/-- Auxiliary: predicates rejecting summary updates count zero over the
end-of-tick refresh. -/
lemma endRefresh_countP (p : Msg → Bool) (hp : p Msg.statusUpdate = false)
    (now : ℚ) (u : Bool) (s : MonState) :
    ((endRefresh now u s).2).countP p = 0 := by
  rcases endRefresh_msgs now u s with h | h <;> simp [h, List.countP_cons, hp]

/-- Auxiliary: the per-id close-related message count over the
closed-position loop equals the id's multiplicity in the processed list. -/
lemma closeLoop_count_close (deals : List Deal) (pid : String) :
    ∀ (ids : List String) (s : MonState),
    ((closeLoop deals ids s).2).countP (isCloseFor pid) = ids.count pid
  | [], s => rfl
  | pid' :: rest, s => by
    obtain ⟨m, hm, hc, _, _, _⟩ := processOneClosed_shape deals pid' s
    simp only [closeLoop, List.countP_append, hm]
    rw [closeLoop_count_close deals pid rest]
    have h0 : isCloseFor pid Msg.statusUpdate = false := rfl
    have hval : List.countP (isCloseFor pid) [m, Msg.statusUpdate] =
        if (pid' == pid) = true then 1 else 0 := by
      simp [List.countP_cons, hc pid, h0]
    by_cases he : pid' = pid
    · subst he
      rw [hval]
      simp [List.count_cons]
      omega
    · rw [hval]
      simp [List.count_cons, he, Ne.symm he]

/-- Auxiliary: predicates rejecting all close-related messages and summary
updates count zero over the closed-position loop. -/
lemma closeLoop_countP (p : Msg → Bool)
    (hp1 : ∀ a b c d e f, p (Msg.closeNotice a b c d e f) = false)
    (hp2 : ∀ a b, p (Msg.closeMissingPrice a b) = false)
    (hp3 : ∀ a b, p (Msg.closeNoDeal a b) = false)
    (hp4 : p Msg.statusUpdate = false)
    (deals : List Deal) :
    ∀ (ids : List String) (s : MonState),
    ((closeLoop deals ids s).2).countP p = 0
  | [], s => rfl
  | pid :: rest, s => by
    have h2 := closeLoop_countP p hp1 hp2 hp3 hp4 deals rest
      (processOneClosed deals pid s).1
    simp only [closeLoop, List.countP_append, h2]
    unfold processOneClosed processOneClosedCore
    split
    · dsimp only
      split <;> simp [List.countP_cons, hp1, hp2, hp4]
    · simp [List.countP_cons, hp3, hp4]

/-- Auxiliary: the closed-position loop emits exactly one summary update
per processed id. -/
lemma closeLoop_count_status (deals : List Deal) :
    ∀ (ids : List String) (s : MonState),
    ((closeLoop deals ids s).2).countP isStatus = ids.length
  | [], s => rfl
  | pid :: rest, s => by
    obtain ⟨m, hm, _, hs, _, _⟩ := processOneClosed_shape deals pid s
    have h1 : isStatus Msg.statusUpdate = true := rfl
    simp only [closeLoop, List.countP_append, hm]
    rw [closeLoop_count_status deals rest]
    simp [List.countP_cons, hs, h1]
    omega

/-- Potential of an order id against the linked-order set: 1 while the id
is unlinked, 0 once linked.  Every triggered emission strictly consumes
it. -/
def linkPotential (oid : String) (linked : List String) : ℕ :=
  if linked.contains oid then 0 else 1

/-- Auxiliary: `setAdd` adds its element. -/
lemma mem_setAdd_self (s : List String) (x : String) : x ∈ setAdd s x := by
  unfold setAdd
  split_ifs with h
  · simpa using h
  · simp

/-- Auxiliary: `setAdd` leaves membership of other elements unchanged. -/
lemma mem_setAdd_ne (s : List String) (a t : String) (h : t ≠ a) :
    t ∈ setAdd s a ↔ t ∈ s := by
  unfold setAdd
  split_ifs with hh
  · exact Iff.rfl
  · simp [List.mem_append, h]

/-- Auxiliary: a triggered-link action spends the link potential of its own
id and leaves every other id's potential unchanged. -/
lemma linkTriggered_potential (t : String) (cp : List (String × PosData))
    (oid : String) (s : MonState) (h : s.linkedOrders.contains oid = false) :
    ((linkTriggered cp oid s).2).countP (isTriggeredFor t) +
      linkPotential t (linkTriggered cp oid s).1.linkedOrders ≤
      linkPotential t s.linkedOrders := by
  have h' : oid ∉ s.linkedOrders := by simpa using h
  unfold linkTriggered linkPotential
  by_cases ht : oid = t
  · subst ht
    simp [List.countP_cons, isTriggeredFor, mem_setAdd_self, h']
  · simp [List.countP_cons, isTriggeredFor, mem_setAdd_ne _ _ _ (Ne.symm ht), ht]

/-- Auxiliary: a fast-path/enqueue iteration spends at most the link
potential. -/
lemma disappearedStep_potential (t : String) (now : ℚ)
    (cp : List (String × PosData)) (oid : String) (s : MonState) (u : Bool) :
    ((disappearedStep now cp oid s u).2.1).countP (isTriggeredFor t) +
      linkPotential t (disappearedStep now cp oid s u).1.linkedOrders ≤
      linkPotential t s.linkedOrders := by
  unfold disappearedStep
  split_ifs with h1 h2 h3
  · simp
  · have h3' : containsKey s.pendingOrderMessages oid = true ∧
        s.linkedOrders.contains oid = false := by simpa using h3
    simpa using linkTriggered_potential t cp oid s h3'.2
  · simp
  · simp

/-- Auxiliary: a delayed-queue iteration spends at most the link
potential. -/
lemma queueStep_potential (t : String) (cp : List (String × PosData))
    (oid : String) (s : MonState) (u : Bool) :
    ((queueStep cp oid s u).2.1).countP (isTriggeredFor t) +
      linkPotential t (queueStep cp oid s u).1.linkedOrders ≤
      linkPotential t s.linkedOrders := by
  unfold queueStep
  split_ifs with h1 h2 h3
  · simp
  · have h3' : containsKey s.pendingOrderMessages oid = true ∧
        s.linkedOrders.contains oid = false := by simpa using h3
    simpa using linkTriggered_potential t cp oid s h3'.2
  · simp
  · simp [List.countP_cons, isTriggeredFor]

/-- Auxiliary: a new-position iteration spends at most the link
potential. -/
lemma newPosStep_potential (t : String) (cp : List (String × PosData))
    (co : List (String × OrdData)) (pid : String) (s : MonState) (u : Bool) :
    ((newPosStep cp co pid s u).2.1).countP (isTriggeredFor t) +
      linkPotential t (newPosStep cp co pid s u).1.linkedOrders ≤
      linkPotential t s.linkedOrders := by
  unfold newPosStep
  split_ifs with h1 h2 h3
  · simp
  · have h2' : containsKey co pid = true ∧
        (containsKey s.pendingOrderMessages pid = true ∧
          s.linkedOrders.contains pid = false) := by simpa using h2
    simpa using linkTriggered_potential t cp pid s h2'.2.2
  · have h3' : containsKey s.pendingOrderMessages pid = true ∧
        s.linkedOrders.contains pid = false := by simpa using h3
    simpa using linkTriggered_potential t cp pid s h3'.2
  · simp [List.countP_cons, isTriggeredFor]

/-- Auxiliary: the disappeared-order loop spends at most the link
potential. -/
lemma disappearedLoop_potential (t : String) (now : ℚ)
    (cp : List (String × PosData)) :
    ∀ (ids : List String) (s : MonState) (u : Bool),
    ((disappearedLoop now cp ids s u).2.1).countP (isTriggeredFor t) +
      linkPotential t (disappearedLoop now cp ids s u).1.linkedOrders ≤
      linkPotential t s.linkedOrders
  | [], s, u => by simp [disappearedLoop]
  | oid :: rest, s, u => by
    have h1 := disappearedStep_potential t now cp oid s u
    have h2 := disappearedLoop_potential t now cp rest
      (disappearedStep now cp oid s u).1 (disappearedStep now cp oid s u).2.2
    simp only [disappearedLoop, List.countP_append]
    omega

/-- Auxiliary: the delayed-queue loop spends at most the link potential. -/
lemma queueLoop_potential (t : String) (cp : List (String × PosData)) :
    ∀ (ids : List String) (s : MonState) (u : Bool),
    ((queueLoop cp ids s u).2.1).countP (isTriggeredFor t) +
      linkPotential t (queueLoop cp ids s u).1.linkedOrders ≤
      linkPotential t s.linkedOrders
  | [], s, u => by simp [queueLoop]
  | oid :: rest, s, u => by
    have h1 := queueStep_potential t cp oid s u
    have h2 := queueLoop_potential t cp rest
      (queueStep cp oid s u).1 (queueStep cp oid s u).2.2
    simp only [queueLoop, List.countP_append]
    omega

/-- Auxiliary: the new-position loop spends at most the link potential. -/
lemma newPosLoop_potential (t : String) (cp : List (String × PosData))
    (co : List (String × OrdData)) :
    ∀ (ids : List String) (s : MonState) (u : Bool),
    ((newPosLoop cp co ids s u).2.1).countP (isTriggeredFor t) +
      linkPotential t (newPosLoop cp co ids s u).1.linkedOrders ≤
      linkPotential t s.linkedOrders
  | [], s, u => by simp [newPosLoop]
  | pid :: rest, s, u => by
    have h1 := newPosStep_potential t cp co pid s u
    have h2 := newPosLoop_potential t cp co rest
      (newPosStep cp co pid s u).1 (newPosStep cp co pid s u).2.2
    simp only [newPosLoop, List.countP_append]
    omega

/-- Auxiliary: one whole tick emits at most one triggered notice per order
id, spending the id's link potential. -/
lemma tick_potential (t : String) (s : MonState) (snap : Snapshot) :
    ((tick s snap).2).countP (isTriggeredFor t) +
      linkPotential t (tick s snap).1.linkedOrders ≤
      linkPotential t s.linkedOrders := by
  rw [tick_eq]
  simp only [List.countP_append]
  have hc4 : ((tickR4 s snap).2).countP (isTriggeredFor t) = 0 :=
    closeLoop_countP _ (fun a b c d e f => rfl) (fun a b => rfl) (fun a b => rfl)
      rfl snap.deals _ _
  have hc8 : ((tickR8 s snap).2.1).countP (isTriggeredFor t) = 0 :=
    newPendLoop_countP _ (fun o sym => rfl) _ _ _ _
  have hc9 : ((tickR9 s snap).2).countP (isTriggeredFor t) = 0 :=
    endRefresh_countP _ rfl _ _ _
  have h5 := disappearedLoop_potential t snap.now (tickCurPos s snap)
    (disappearedIds (tickS0 s snap).lastPendingOrders (tickCurOrd snap))
    (tickR4 s snap).1 false
  have h6 := queueLoop_potential t (tickCurPos s snap)
    (ordersToProcess snap.now (tickR5 s snap).1.pendingDisappearedOrders)
    (tickR5 s snap).1 (tickR5 s snap).2.2
  have h7 := newPosLoop_potential t (tickCurPos s snap) (tickCurOrd snap)
    (newPositionIds (tickS0 s snap).lastPositions (tickCurPos s snap))
    (tickR6 s snap).1 (tickR6 s snap).2.2
  have e4 : (tickR4 s snap).1.linkedOrders = (tickS0 s snap).linkedOrders :=
    (closeLoop_frame _ _ _).2.1
  have e0 : (tickS0 s snap).linkedOrders = s.linkedOrders :=
    (rollover_frame _ _).2.2.2.2.2.2.1
  have e8 : (tickR8 s snap).1.linkedOrders = (tickR7 s snap).1.linkedOrders :=
    (newPendLoop_frame _ _ _ _).2.2.2.2.2.1
  have e9 : (tickR9 s snap).1.linkedOrders = (tickR8 s snap).1.linkedOrders :=
    (endRefresh_frame _ _ _).2.2.2.1
  have efin : (finalizeTick (tickCurPos s snap) (tickCurOrd snap)
        (tickR9 s snap).1).linkedOrders = (tickR9 s snap).1.linkedOrders :=
    (finalizeTick_frame _ _ _).2.2.2.2.2.2.2.1
  have p4 := congrArg (linkPotential t) (e4.trans e0)
  have p8 := congrArg (linkPotential t) e8
  have p9 := congrArg (linkPotential t) e9
  have pfin := congrArg (linkPotential t) efin
  have h5' : ((tickR5 s snap).2.1).countP (isTriggeredFor t) +
      linkPotential t (tickR5 s snap).1.linkedOrders ≤
      linkPotential t (tickR4 s snap).1.linkedOrders := h5
  have h6' : ((tickR6 s snap).2.1).countP (isTriggeredFor t) +
      linkPotential t (tickR6 s snap).1.linkedOrders ≤
      linkPotential t (tickR5 s snap).1.linkedOrders := h6
  have h7' : ((tickR7 s snap).2.1).countP (isTriggeredFor t) +
      linkPotential t (tickR7 s snap).1.linkedOrders ≤
      linkPotential t (tickR6 s snap).1.linkedOrders := h7
  omega

/-- Auxiliary: a whole trace emits at most the initial link potential of
triggered notices for an id. -/
lemma runTrace_potential (t : String) :
    ∀ (snaps : List Snapshot) (s : MonState),
    traceCount (isTriggeredFor t) (runTrace s snaps).2 +
      linkPotential t (runTrace s snaps).1.linkedOrders ≤
      linkPotential t s.linkedOrders
  | [], s => by simp [runTrace, traceCount]
  | snap :: rest, s => by
    have h1 := tick_potential t s snap
    have h2 := runTrace_potential t rest (tick s snap).1
    simp only [runTrace, traceCount, List.map_cons, List.sum_cons, msgCount] at h2 ⊢
    omega

/-- Auxiliary: absence of a key as a lookup statement. -/
lemma containsKey_eq_false_iff {α : Type} (l : List (String × α)) (k : String) :
    containsKey l k = false ↔ lookupA l k = none := by
  unfold containsKey
  cases lookupA l k <;> simp

/-- Auxiliary: without a tracked announcement message for an id, a
fast-path iteration emits no triggered notice for it and does not create
one. -/
lemma disappearedStep_noPending (t : String) (now : ℚ)
    (cp : List (String × PosData)) (oid : String) (s : MonState) (u : Bool)
    (h : containsKey s.pendingOrderMessages t = false) :
    ((disappearedStep now cp oid s u).2.1).countP (isTriggeredFor t) = 0 ∧
    containsKey (disappearedStep now cp oid s u).1.pendingOrderMessages t = false := by
  refine ⟨?_, by rw [(disappearedStep_frame now cp oid s u).2.2.2.2.2.1]; exact h⟩
  unfold disappearedStep linkTriggered
  split_ifs with h1 h2 h3
  · rfl
  · have h3' : containsKey s.pendingOrderMessages oid = true ∧
        s.linkedOrders.contains oid = false := by simpa using h3
    have hne : oid ≠ t := by
      intro he
      rw [he] at h3'
      rw [h3'.1] at h
      exact Bool.noConfusion h
    simp [List.countP_cons, isTriggeredFor, hne]
  · rfl
  · rfl

/-- Auxiliary: without a tracked announcement message for an id, a
delayed-queue iteration emits no triggered notice for it and does not
create one. -/
lemma queueStep_noPending (t : String) (cp : List (String × PosData))
    (oid : String) (s : MonState) (u : Bool)
    (h : containsKey s.pendingOrderMessages t = false) :
    ((queueStep cp oid s u).2.1).countP (isTriggeredFor t) = 0 ∧
    containsKey (queueStep cp oid s u).1.pendingOrderMessages t = false := by
  have hn : lookupA s.pendingOrderMessages t = none :=
    (containsKey_eq_false_iff _ _).mp h
  unfold queueStep linkTriggered
  split_ifs with h1 h2 h3
  · exact ⟨rfl, h⟩
  · have h3' : containsKey s.pendingOrderMessages oid = true ∧
        s.linkedOrders.contains oid = false := by simpa using h3
    have hne : oid ≠ t := by
      intro he
      rw [he] at h3'
      rw [h3'.1] at h
      exact Bool.noConfusion h
    constructor
    · simp [List.countP_cons, isTriggeredFor, hne]
    · simpa [containsKey_eq_false_iff] using hn
  · exact ⟨rfl, h⟩
  · constructor
    · simp [List.countP_cons, isTriggeredFor]
    · simp only [containsKey_eq_false_iff]
      exact lookupA_eraseA_none _ _ _ hn

/-- Auxiliary: without a tracked announcement message for an id, a
new-position iteration emits no triggered notice for it and does not
create one. -/
lemma newPosStep_noPending (t : String) (cp : List (String × PosData))
    (co : List (String × OrdData)) (pid : String) (s : MonState) (u : Bool)
    (h : containsKey s.pendingOrderMessages t = false) :
    ((newPosStep cp co pid s u).2.1).countP (isTriggeredFor t) = 0 ∧
    containsKey (newPosStep cp co pid s u).1.pendingOrderMessages t = false := by
  refine ⟨?_, by rw [(newPosStep_frame cp co pid s u).2.2.2.2.2.1]; exact h⟩
  unfold newPosStep linkTriggered
  split_ifs with h1 h2 h3
  · rfl
  · have h2' : containsKey co pid = true ∧
        (containsKey s.pendingOrderMessages pid = true ∧
          s.linkedOrders.contains pid = false) := by simpa using h2
    have hne : pid ≠ t := by
      intro he
      rw [he] at h2'
      rw [h2'.2.1] at h
      exact Bool.noConfusion h
    simp [List.countP_cons, isTriggeredFor, hne]
  · have h3' : containsKey s.pendingOrderMessages pid = true ∧
        s.linkedOrders.contains pid = false := by simpa using h3
    have hne : pid ≠ t := by
      intro he
      rw [he] at h3'
      rw [h3'.1] at h
      exact Bool.noConfusion h
    simp [List.countP_cons, isTriggeredFor, hne]
  · simp [List.countP_cons, isTriggeredFor]

/-- Auxiliary: loop version of `disappearedStep_noPending`. -/
lemma disappearedLoop_noPending (t : String) (now : ℚ)
    (cp : List (String × PosData)) :
    ∀ (ids : List String) (s : MonState) (u : Bool),
    containsKey s.pendingOrderMessages t = false →
    ((disappearedLoop now cp ids s u).2.1).countP (isTriggeredFor t) = 0 ∧
    containsKey (disappearedLoop now cp ids s u).1.pendingOrderMessages t = false
  | [], s, u, h => ⟨rfl, h⟩
  | oid :: rest, s, u, h => by
    obtain ⟨c1, k1⟩ := disappearedStep_noPending t now cp oid s u h
    obtain ⟨c2, k2⟩ := disappearedLoop_noPending t now cp rest
      (disappearedStep now cp oid s u).1 (disappearedStep now cp oid s u).2.2 k1
    simp only [disappearedLoop, List.countP_append]
    exact ⟨by omega, k2⟩

/-- Auxiliary: loop version of `queueStep_noPending`. -/
lemma queueLoop_noPending (t : String) (cp : List (String × PosData)) :
    ∀ (ids : List String) (s : MonState) (u : Bool),
    containsKey s.pendingOrderMessages t = false →
    ((queueLoop cp ids s u).2.1).countP (isTriggeredFor t) = 0 ∧
    containsKey (queueLoop cp ids s u).1.pendingOrderMessages t = false
  | [], s, u, h => ⟨rfl, h⟩
  | oid :: rest, s, u, h => by
    obtain ⟨c1, k1⟩ := queueStep_noPending t cp oid s u h
    obtain ⟨c2, k2⟩ := queueLoop_noPending t cp rest
      (queueStep cp oid s u).1 (queueStep cp oid s u).2.2 k1
    simp only [queueLoop, List.countP_append]
    exact ⟨by omega, k2⟩

/-- Auxiliary: loop version of `newPosStep_noPending`. -/
lemma newPosLoop_noPending (t : String) (cp : List (String × PosData))
    (co : List (String × OrdData)) :
    ∀ (ids : List String) (s : MonState) (u : Bool),
    containsKey s.pendingOrderMessages t = false →
    ((newPosLoop cp co ids s u).2.1).countP (isTriggeredFor t) = 0 ∧
    containsKey (newPosLoop cp co ids s u).1.pendingOrderMessages t = false
  | [], s, u, h => ⟨rfl, h⟩
  | pid :: rest, s, u, h => by
    obtain ⟨c1, k1⟩ := newPosStep_noPending t cp co pid s u h
    obtain ⟨c2, k2⟩ := newPosLoop_noPending t cp co rest
      (newPosStep cp co pid s u).1 (newPosStep cp co pid s u).2.2 k1
    simp only [newPosLoop, List.countP_append]
    exact ⟨by omega, k2⟩

/-- Auxiliary: a tick emits no triggered notice for an id whose pending
announcement is not tracked at the start of the tick. -/
lemma tick_noPending (t : String) (s : MonState) (snap : Snapshot)
    (h : containsKey s.pendingOrderMessages t = false) :
    ((tick s snap).2).countP (isTriggeredFor t) = 0 := by
  rw [tick_eq]
  simp only [List.countP_append]
  have e0 : (tickS0 s snap).pendingOrderMessages = s.pendingOrderMessages :=
    (rollover_frame _ _).2.2.2.1
  have e4 : (tickR4 s snap).1.pendingOrderMessages =
      (tickS0 s snap).pendingOrderMessages := (closeLoop_frame _ _ _).2.2.2.1
  have h0 : containsKey (tickS0 s snap).pendingOrderMessages t = false := by
    rw [e0]; exact h
  have h4 : containsKey (tickR4 s snap).1.pendingOrderMessages t = false := by
    rw [e4]; exact h0
  have hc4 : ((tickR4 s snap).2).countP (isTriggeredFor t) = 0 :=
    closeLoop_countP _ (fun a b c d e f => rfl) (fun a b => rfl) (fun a b => rfl)
      rfl snap.deals _ _
  have hl5 : ((tickR5 s snap).2.1).countP (isTriggeredFor t) = 0 ∧
      containsKey (tickR5 s snap).1.pendingOrderMessages t = false :=
    disappearedLoop_noPending t snap.now _ _ _ _ h4
  have hl6 : ((tickR6 s snap).2.1).countP (isTriggeredFor t) = 0 ∧
      containsKey (tickR6 s snap).1.pendingOrderMessages t = false :=
    queueLoop_noPending t _ _ _ _ hl5.2
  have hl7 : ((tickR7 s snap).2.1).countP (isTriggeredFor t) = 0 ∧
      containsKey (tickR7 s snap).1.pendingOrderMessages t = false :=
    newPosLoop_noPending t _ _ _ _ _ hl6.2
  have hc8 : ((tickR8 s snap).2.1).countP (isTriggeredFor t) = 0 :=
    newPendLoop_countP _ (fun o sym => rfl) _ _ _ _
  have hc9 : ((tickR9 s snap).2).countP (isTriggeredFor t) = 0 :=
    endRefresh_countP _ rfl _ _ _
  omega

/-- C6: across any sequence of ticks the triggered-notification path fires
at most once per order id; once the id is in the linked-order set no later
tick emits another triggered notice or unlinks it; and an id marked
processed whose announcement is no longer tracked (or that is already
linked) triggers no notice either. -/
theorem claim6_idempotent_linking (oid : String) :
    (∀ (s : MonState) (snaps : List Snapshot),
      s.linkedOrders.contains oid = false →
      traceCount (isTriggeredFor oid) (runTrace s snaps).2 ≤ 1) ∧
    (∀ (s : MonState) (snaps : List Snapshot),
      s.linkedOrders.contains oid = true →
      traceCount (isTriggeredFor oid) (runTrace s snaps).2 = 0 ∧
      (runTrace s snaps).1.linkedOrders.contains oid = true) ∧
    (∀ (s : MonState) (snap : Snapshot),
      s.processedOrders.contains oid = true →
      (s.linkedOrders.contains oid = true ∨
        containsKey s.pendingOrderMessages oid = false) →
      msgCount (isTriggeredFor oid) (tick s snap).2 = 0) := by
  refine ⟨?_, ?_, ?_⟩
  · intro s snaps h
    have hp := runTrace_potential oid snaps s
    unfold linkPotential at hp
    rw [h] at hp
    simp only [Bool.false_eq_true, if_false] at hp
    omega
  · intro s snaps h
    have hp := runTrace_potential oid snaps s
    unfold linkPotential at hp
    rw [h] at hp
    simp only [if_true] at hp
    rcases hc : (runTrace s snaps).1.linkedOrders.contains oid with _ | _
    · rw [hc] at hp
      simp only [Bool.false_eq_true, if_false] at hp
      omega
    · rw [hc] at hp
      simp only [if_true] at hp
      exact ⟨by omega, rfl⟩
  · intro s snap _ hd
    rcases hd with hlink | hmsg
    · have hp := tick_potential oid s snap
      unfold linkPotential at hp
      rw [hlink] at hp
      simp only [if_true] at hp
      simpa [msgCount] using (by omega :
        ((tick s snap).2).countP (isTriggeredFor oid) = 0)
    · simpa [msgCount] using tick_noPending oid s snap hmsg

/-- C8: every close is followed by an immediate summary refresh that
bypasses the throttle (one refresh per closed position, unconditionally);
the end-of-tick refresh fires exactly when no pinned message id is known
or an event occurred and the minimum interval has elapsed; and no other
phase of the tick emits summary updates. -/
theorem claim8_summary_refresh
    (deals : List Deal) (pid : String) (s s2 s3 : MonState)
    (ids ids2 : List String) (now : ℚ) (u u3 : Bool)
    (cp : List (String × PosData)) (co : List (String × OrdData)) :
    (∃ m, (processOneClosed deals pid s).2 = [m, Msg.statusUpdate] ∧
      isCloseFor pid m = true) ∧
    ((closeLoop deals ids s).2).countP isStatus = ids.length ∧
    ((endRefresh now u s2).2 ≠ [] ↔
      (s2.pinnedMessageId = none ∨
        (u = true ∧ min_update_interval ≤ now - s2.lastStatusUpdateTime))) ∧
    ((disappearedLoop now cp ids2 s3 u3).2.1).countP isStatus = 0 ∧
    ((queueLoop cp ids2 s3 u3).2.1).countP isStatus = 0 ∧
    ((newPosLoop cp co ids2 s3 u3).2.1).countP isStatus = 0 ∧
    ((newPendLoop co ids2 s3 u3).2.1).countP isStatus = 0 := by
  refine ⟨?_, closeLoop_count_status deals ids s, ?_,
    disappearedLoop_countP isStatus (fun o sym r => rfl) now cp ids2 s3 u3,
    queueLoop_countP isStatus (fun o sym r => rfl) (fun o sym r => rfl) cp ids2 s3 u3,
    newPosLoop_countP isStatus (fun o sym r => rfl) (fun o sym => rfl) cp co ids2 s3 u3,
    newPendLoop_countP isStatus (fun o sym => rfl) co ids2 s3 u3⟩
  · obtain ⟨m, hm, hc, _, _, _⟩ := processOneClosed_shape deals pid s
    refine ⟨m, hm, ?_⟩
    rw [hc pid]
    exact beq_self_eq_true pid
  · have hiff : (s2.pinnedMessageId.isNone ||
        (u && decide (min_update_interval ≤ now - s2.lastStatusUpdateTime))) = true ↔
        (s2.pinnedMessageId = none ∨
          (u = true ∧ min_update_interval ≤ now - s2.lastStatusUpdateTime)) := by
      simp [Option.isNone_iff_eq_none]
    unfold endRefresh
    split_ifs with h
    · exact ⟨fun _ => hiff.mp h, fun _ => by simp⟩
    · exact ⟨fun hne => absurd rfl hne, fun hc => absurd (hiff.mpr hc) h⟩

/-- C6 witness: a pending order announced and then found as a position is
triggered exactly once; a pre-linked or processed-and-untracked id yields
no triggered notice. -/
theorem claim6_witness :
    (initState 0).linkedOrders.contains "O1" = false ∧
    traceCount (isTriggeredFor "O1")
      (runTrace (initState 0)
        [⟨0, 0, [], [⟨some "O1", some 1, none, none, "ORDER_TYPE_BUY_LIMIT", "EURUSD"⟩], []⟩,
         ⟨0, 1, [⟨some "O1", some (.int 1), none, none, "POSITION_TYPE_BUY", "EURUSD", none⟩],
           [], []⟩]).2 ≤ 1 ∧
    traceCount (isTriggeredFor "O1")
      (runTrace ⟨[], [], [], [], [], [], ["O1"], [], none, 0, 0, [], 0, [], 1⟩
        [⟨0, 1, [⟨some "O1", some (.int 1), none, none, "POSITION_TYPE_BUY", "EURUSD", none⟩],
          [], []⟩]).2 = 0 ∧
    msgCount (isTriggeredFor "O1")
      (tick ⟨[], [], [], [], [], ["O1"], [], [], none, 0, 0, [], 0, [], 1⟩
        ⟨0, 1, [], [], []⟩).2 = 0 := by
  have h := claim6_idempotent_linking "O1"
  exact ⟨by decide, h.1 _ _ (by decide), (h.2.1 _ _ (by decide)).1,
    h.2.2 _ _ (by decide) (Or.inr (by decide))⟩

/-- Auxiliary: once the accumulator holds the frozen record for a tracked
id, the rest of the snapshot scan keeps its first five fields. -/
lemma buildCurrentPositions_keeps (last : List (String × PosData)) (pid : String)
    (d : PosData) (hl : lookupA last pid = some d) :
    ∀ (raw : List RawPosition) (cur : List (String × PosData)),
    (∃ o, lookupA cur pid = some { d with orderId := o }) →
    ∃ o, lookupA (buildCurrentPositions last raw cur) pid = some { d with orderId := o }
  | [], cur, h => by simpa [buildCurrentPositions] using h
  | rp :: rest, cur, h => by
    by_cases hT : pyTruthy rp.pid = true
    · by_cases hpid : rp.pid.getD "" = pid
      · have hLk : lookupA last (rp.pid.getD "") = some d := by
          rw [hpid]; exact hl
        simp only [buildCurrentPositions, hT, if_true, hLk]
        apply buildCurrentPositions_keeps last pid d hl rest
        exact ⟨_, by rw [hpid]; exact lookupA_insertA_self cur pid _⟩
      · have hpe : pid ≠ rp.pid.getD "" := fun he => hpid he.symm
        rcases hLk : lookupA last (rp.pid.getD "") with _ | old
        · simp only [buildCurrentPositions, hT, if_true, hLk]
          apply buildCurrentPositions_keeps last pid d hl rest
          obtain ⟨o, ho⟩ := h
          exact ⟨o, by rw [lookupA_insertA_ne _ _ _ _ hpe]; exact ho⟩
        · simp only [buildCurrentPositions, hT, if_true, hLk]
          apply buildCurrentPositions_keeps last pid d hl rest
          obtain ⟨o, ho⟩ := h
          exact ⟨o, by rw [lookupA_insertA_ne _ _ _ _ hpe]; exact ho⟩
    · simp only [buildCurrentPositions]
      rw [if_neg hT]
      exact buildCurrentPositions_keeps last pid d hl rest cur h

/-- Auxiliary: a tracked id reported anywhere in the snapshot ends the
scan with its first five fields frozen to the saved record. -/
lemma buildCurrentPositions_frozen (last : List (String × PosData)) (pid : String)
    (d : PosData) (hne : pid ≠ "") (hl : lookupA last pid = some d) :
    ∀ (raw : List RawPosition) (cur : List (String × PosData)),
    (∃ rp, rp ∈ raw ∧ rp.pid = some pid) →
    ∃ o, lookupA (buildCurrentPositions last raw cur) pid = some { d with orderId := o }
  | [], cur, h => absurd h.choose_spec.1 (List.not_mem_nil _)
  | rp :: rest, cur, h => by
    obtain ⟨rp', hm, hid⟩ := h
    rcases List.mem_cons.mp hm with he | hm'
    · subst he
      have hT : pyTruthy rp'.pid = true := by
        rw [hid]
        simp [pyTruthy, hne]
      have hg : rp'.pid.getD "" = pid := by rw [hid]; rfl
      have hLk : lookupA last (rp'.pid.getD "") = some d := by rw [hg]; exact hl
      simp only [buildCurrentPositions, hT, if_true, hLk]
      apply buildCurrentPositions_keeps last pid d hl rest
      exact ⟨_, by rw [hg]; exact lookupA_insertA_self cur pid _⟩
    · by_cases hT : pyTruthy rp.pid = true
      · rcases hLk : lookupA last (rp.pid.getD "") with _ | old
        · simp only [buildCurrentPositions, hT, if_true, hLk]
          exact buildCurrentPositions_frozen last pid d hne hl rest _ ⟨rp', hm', hid⟩
        · simp only [buildCurrentPositions, hT, if_true, hLk]
          exact buildCurrentPositions_frozen last pid d hne hl rest _ ⟨rp', hm', hid⟩
      · simp only [buildCurrentPositions]
        rw [if_neg hT]
        exact buildCurrentPositions_frozen last pid d hne hl rest cur ⟨rp', hm', hid⟩

/-- Auxiliary: over a whole trace in which the broker keeps reporting the
id, the tracked record keeps its first observation's five fields. -/
lemma runTrace_frozen (pid : String) (hne : pid ≠ "") :
    ∀ (snaps : List Snapshot) (s : MonState) (d : PosData),
    lookupA s.lastPositions pid = some d →
    (∀ snap ∈ snaps, ∃ rp, rp ∈ snap.positions ∧ rp.pid = some pid) →
    ∃ o, lookupA (runTrace s snaps).1.lastPositions pid = some { d with orderId := o }
  | [], s, d, hl, _ => ⟨d.orderId, hl⟩
  | snap :: rest, s, d, hl, hA => by
    have h1 : ∃ o, lookupA (tick s snap).1.lastPositions pid =
        some { d with orderId := o } := by
      rw [tick_lastPositions]
      exact buildCurrentPositions_frozen s.lastPositions pid d hne hl snap.positions []
        (hA snap (List.mem_cons_self snap rest))
    obtain ⟨o, ho⟩ := h1
    obtain ⟨o2, ho2⟩ := runTrace_frozen pid hne rest (tick s snap).1
      { d with orderId := o } ho (fun sn hsn => hA sn (List.mem_cons_of_mem snap hsn))
    exact ⟨o2, ho2⟩

/-- C5: once a position id has been observed with a record `d`, then on
every later tick in which the broker still reports the id — whatever
revised values it reports — the tracked record keeps the open price,
take-profit, stop-loss, direction and symbol of the first observation. -/
theorem claim5_frozen_fields (pid : String) (s : MonState) (snaps : List Snapshot)
    (d : PosData) (hne : pid ≠ "")
    (hl : lookupA s.lastPositions pid = some d)
    (hrep : ∀ snap ∈ snaps, ∃ rp, rp ∈ snap.positions ∧ rp.pid = some pid) :
    ∃ d', lookupA (runTrace s snaps).1.lastPositions pid = some d' ∧
      d'.openPrice = d.openPrice ∧ d'.takeProfit = d.takeProfit ∧
      d'.stopLoss = d.stopLoss ∧ d'.ptype = d.ptype ∧ d'.symbol = d.symbol := by
  obtain ⟨o, ho⟩ := runTrace_frozen pid hne snaps s d hl hrep
  exact ⟨_, ho, rfl, rfl, rfl, rfl, rfl⟩

/-- C5 witness: a position tracked with open price 1 / TP 2 / SL 3 keeps
those fields although the broker later reports open price 9 / TP 8 /
SL 7 for the same id. -/
theorem claim5_witness :
    ("P1" : String) ≠ "" ∧
    lookupA (⟨[("P1", ⟨some (.int 1), some 2, some 3, "POSITION_TYPE_BUY", "EURUSD", none⟩)],
        [], [], [], [], [], [], [], none, 0, 0, [], 0, [], 1⟩ : MonState).lastPositions "P1" =
      some ⟨some (.int 1), some 2, some 3, "POSITION_TYPE_BUY", "EURUSD", none⟩ ∧
    (∃ d', lookupA (runTrace
        ⟨[("P1", ⟨some (.int 1), some 2, some 3, "POSITION_TYPE_BUY", "EURUSD", none⟩)],
          [], [], [], [], [], [], [], none, 0, 0, [], 0, [], 1⟩
        [⟨0, 0, [⟨some "P1", some (.int 9), some 8, some 7, "POSITION_TYPE_SELL", "XAUUSD",
          none⟩], [], []⟩]).1.lastPositions "P1" = some d' ∧
      d'.openPrice = some (.int 1) ∧ d'.takeProfit = some 2 ∧
      d'.stopLoss = some 3 ∧ d'.ptype = "POSITION_TYPE_BUY" ∧ d'.symbol = "EURUSD") := by
  refine ⟨by decide, by decide, ?_⟩
  exact claim5_frozen_fields "P1"
    ⟨[("P1", ⟨some (.int 1), some 2, some 3, "POSITION_TYPE_BUY", "EURUSD", none⟩)],
      [], [], [], [], [], [], [], none, 0, 0, [], 0, [], 1⟩
    [⟨0, 0, [⟨some "P1", some (.int 9), some 8, some 7, "POSITION_TYPE_SELL", "XAUUSD",
      none⟩], [], []⟩]
    ⟨some (.int 1), some 2, some 3, "POSITION_TYPE_BUY", "EURUSD", none⟩
    (by decide) (by decide) (by decide)

/-- Auxiliary: a successful lookup is a membership. -/
lemma lookupA_some_mem {α : Type} :
    ∀ (l : List (String × α)) (k : String) (v : α),
    lookupA l k = some v → (k, v) ∈ l
  | [], k, v, h => by simp [lookupA] at h
  | (k', v') :: rest, k, v, h => by
    revert h
    unfold lookupA
    split_ifs with hk
    · intro h
      cases Option.some.inj h
      subst hk
      exact List.mem_cons_self _ _
    · intro h
      exact List.mem_cons_of_mem _ (lookupA_some_mem rest k v h)

/-- Auxiliary: lookups survive appending on the right. -/
lemma lookupA_append_left {α : Type} :
    ∀ (l1 l2 : List (String × α)) (k : String) (v : α),
    lookupA l1 k = some v → lookupA (l1 ++ l2) k = some v
  | [], l2, k, v, h => by simp [lookupA] at h
  | (k', v') :: rest, l2, k, v, h => by
    by_cases hk : k' = k
    · simpa [lookupA, hk] using h
    · simp only [lookupA, if_neg hk] at h ⊢
      exact lookupA_append_left rest l2 k v h

/-- Auxiliary: key membership as membership in the key list. -/
lemma containsKey_iff_mem_keys {α : Type} :
    ∀ (l : List (String × α)) (k : String),
    containsKey l k = true ↔ k ∈ keysOf l
  | [], k => by simp [containsKey, lookupA, keysOf]
  | (k', v') :: rest, k => by
    by_cases hk : k' = k
    · simp [containsKey, lookupA, hk, keysOf]
    · simp only [containsKey, lookupA, if_neg hk, keysOf, List.map_cons, List.mem_cons]
      rw [← keysOf, ← containsKey, containsKey_iff_mem_keys rest k]
      constructor
      · exact Or.inr
      · rintro (he | hm)
        · exact absurd he.symm hk
        · exact hm

/-- Auxiliary: inserting a fresh key appends it. -/
lemma insertA_fresh_append {α : Type} :
    ∀ (l : List (String × α)) (k : String) (v : α),
    containsKey l k = false → insertA l k v = l ++ [(k, v)]
  | [], k, v, _ => rfl
  | (k', v') :: rest, k, v, h => by
    have h' : k' ≠ k ∧ containsKey rest k = false := by
      by_cases hk : k' = k
      · simp [containsKey, lookupA, hk] at h
      · refine ⟨hk, ?_⟩
        simpa [containsKey, lookupA, hk] using h
    simp only [insertA, if_neg h'.1, List.cons_append, List.cons.injEq, true_and]
    exact insertA_fresh_append rest k v h'.2

/-- Auxiliary: erasing only removes entries. -/
lemma eraseA_subset {α : Type} :
    ∀ (l : List (String × α)) (k : String) (x : String × α),
    x ∈ eraseA l k → x ∈ l
  | [], k, x, h => by simp [eraseA] at h
  | (k', v') :: rest, k, x, h => by
    by_cases hk : k' = k
    · rw [eraseA, if_pos hk] at h
      exact List.mem_cons_of_mem _ h
    · rw [eraseA, if_neg hk] at h
      rcases List.mem_cons.mp h with he | hm
      · exact he ▸ List.mem_cons_self _ _
      · exact List.mem_cons_of_mem _ (eraseA_subset rest k x hm)

/-- Auxiliary: a fast-path/enqueue iteration preserves existing queue
entries. -/
lemma disappearedStep_queue_lookup (now : ℚ) (cp : List (String × PosData))
    (oid : String) (s : MonState) (u : Bool) (k : String) (v : ℚ × OrdData)
    (h : lookupA s.pendingDisappearedOrders k = some v) :
    lookupA (disappearedStep now cp oid s u).1.pendingDisappearedOrders k = some v := by
  unfold disappearedStep linkTriggered
  split_ifs with g1 g2 g3
  · exact h
  · exact h
  · exact h
  · have hq : containsKey s.pendingDisappearedOrders oid = false := by
      rcases (Bool.or_eq_true _ _).symm ▸ g1 with _
      by_cases hc : containsKey s.pendingDisappearedOrders oid = true
      · exact absurd (by simp [hc]) g1
      · simpa using hc
    have hk : k ≠ oid := by
      intro he
      subst he
      rw [(containsKey_eq_false_iff _ _).mp hq] at h
      exact Option.noConfusion h
    simpa using (lookupA_insertA_ne s.pendingDisappearedOrders oid k (now,
      (lookupA s.lastPendingOrders oid).getD defaultOrdData) hk).symm ▸ h

/-- Auxiliary: the disappeared-order loop preserves existing queue
entries. -/
lemma disappearedLoop_queue_lookup (now : ℚ) (cp : List (String × PosData)) :
    ∀ (ids : List String) (s : MonState) (u : Bool) (k : String) (v : ℚ × OrdData),
    lookupA s.pendingDisappearedOrders k = some v →
    lookupA (disappearedLoop now cp ids s u).1.pendingDisappearedOrders k = some v
  | [], s, u, k, v, h => h
  | oid :: rest, s, u, k, v, h => by
    simp only [disappearedLoop]
    exact disappearedLoop_queue_lookup now cp rest _ _ k v
      (disappearedStep_queue_lookup now cp oid s u k v h)

/-- Auxiliary: queue entries after a fast-path/enqueue iteration are old
entries or carry the tick's wall-clock time. -/
lemma disappearedStep_queue_mem (now : ℚ) (cp : List (String × PosData))
    (oid : String) (s : MonState) (u : Bool) (k : String) (e : ℚ × OrdData)
    (h : (k, e) ∈ (disappearedStep now cp oid s u).1.pendingDisappearedOrders) :
    (k, e) ∈ s.pendingDisappearedOrders ∨ e.1 = now := by
  revert h
  unfold disappearedStep linkTriggered
  dsimp only
  split_ifs with g1 g2 g3 <;> intro h
  · exact Or.inl h
  · exact Or.inl h
  · exact Or.inl h
  · have hq : containsKey s.pendingDisappearedOrders oid = false := by
      by_cases hc : containsKey s.pendingDisappearedOrders oid = true
      · exact absurd (by simp [hc]) g1
      · simpa using hc
    rw [insertA_fresh_append _ _ _ hq] at h
    rcases List.mem_append.mp h with hm | hm
    · exact Or.inl hm
    · have he := List.mem_singleton.mp hm
      have h2 := (Prod.ext_iff.mp he).2
      exact Or.inr (by rw [show e = _ from h2])

/-- Auxiliary: loop version of `disappearedStep_queue_mem`. -/
lemma disappearedLoop_queue_mem (now : ℚ) (cp : List (String × PosData)) :
    ∀ (ids : List String) (s : MonState) (u : Bool) (k : String) (e : ℚ × OrdData),
    (k, e) ∈ (disappearedLoop now cp ids s u).1.pendingDisappearedOrders →
    (k, e) ∈ s.pendingDisappearedOrders ∨ e.1 = now
  | [], s, u, k, e, h => Or.inl h
  | oid :: rest, s, u, k, e, h => by
    simp only [disappearedLoop] at h
    rcases disappearedLoop_queue_mem now cp rest _ _ k e h with hm | ht
    · exact disappearedStep_queue_mem now cp oid s u k e hm
    · exact Or.inr ht

/-- Auxiliary: a delayed-queue iteration only removes queue entries. -/
lemma queueStep_queue_subset (cp : List (String × PosData)) (oid : String)
    (s : MonState) (u : Bool) (x : String × (ℚ × OrdData))
    (h : x ∈ (queueStep cp oid s u).1.pendingDisappearedOrders) :
    x ∈ s.pendingDisappearedOrders := by
  revert h
  unfold queueStep linkTriggered
  split_ifs <;> intro h
  · exact h
  · exact eraseA_subset _ _ _ h
  · exact eraseA_subset _ _ _ h
  · exact eraseA_subset _ _ _ h

/-- Auxiliary: loop version of `queueStep_queue_subset`. -/
lemma queueLoop_queue_subset (cp : List (String × PosData)) :
    ∀ (ids : List String) (s : MonState) (u : Bool) (x : String × (ℚ × OrdData)),
    x ∈ (queueLoop cp ids s u).1.pendingDisappearedOrders →
    x ∈ s.pendingDisappearedOrders
  | [], s, u, x, h => h
  | oid :: rest, s, u, x, h => by
    simp only [queueLoop] at h
    exact queueStep_queue_subset cp oid s u x
      (queueLoop_queue_subset cp rest _ _ x h)

/-- Auxiliary: a cancellation notice can only be emitted for an id in the
processed list of the delayed queue. -/
lemma queueLoop_cancel_mem (cp : List (String × PosData)) (oid : String) :
    ∀ (ids : List String) (s : MonState) (u : Bool),
    0 < ((queueLoop cp ids s u).2.1).countP (isCanceledFor oid) → oid ∈ ids
  | [], s, u, h => by simp [queueLoop] at h
  | oid' :: rest, s, u, h => by
    simp only [queueLoop, List.countP_append] at h
    by_cases hs : 0 < ((queueStep cp oid' s u).2.1).countP (isCanceledFor oid)
    · rcases queueStep_msgs cp oid' s u with hm | ⟨sym, r, hm⟩ | ⟨sym, r, hm⟩ <;>
        rw [hm] at hs
      · simp at hs
      · simp [List.countP_cons, isTriggeredFor, isCanceledFor] at hs
      · have : (oid' == oid) = true := by
          by_contra hne
          rw [List.countP_cons] at hs
          simp [isCanceledFor, Bool.of_not_eq_true hne] at hs
        have heq : oid' = oid := by simpa using this
        exact List.mem_cons.mpr (Or.inl heq.symm)
    · have hr : 0 < ((queueLoop cp rest (queueStep cp oid' s u).1
          (queueStep cp oid' s u).2.2).2.1).countP (isCanceledFor oid) := by omega
      exact List.mem_cons_of_mem _ (queueLoop_cancel_mem cp oid rest _ _ hr)

/-- Auxiliary: membership in the delay-expired id list yields a queue
entry older than the confirmation delay. -/
lemma mem_ordersToProcess (now : ℚ) (q : List (String × (ℚ × OrdData)))
    (oid : String) (h : oid ∈ ordersToProcess now q) :
    ∃ e, (oid, e) ∈ q ∧ order_processing_delay ≤ now - e.1 := by
  unfold ordersToProcess at h
  rcases List.mem_map.mp h with ⟨⟨k, e⟩, hm, hk⟩
  rcases List.mem_filter.mp hm with ⟨hq, hf⟩
  refine ⟨e, ?_, by simpa using hf⟩
  rw [show oid = k from hk.symm]
  exact hq

/-- Auxiliary: every queue entry after a tick is a pre-tick entry or was
enqueued at this tick's wall-clock time. -/
lemma tick_queue_mem (s : MonState) (snap : Snapshot) (k : String)
    (e : ℚ × OrdData)
    (h : (k, e) ∈ (tick s snap).1.pendingDisappearedOrders) :
    (k, e) ∈ s.pendingDisappearedOrders ∨ e.1 = snap.now := by
  rw [tick_eq] at h
  have e9 : (finalizeTick (tickCurPos s snap) (tickCurOrd snap)
      (tickR9 s snap).1).pendingDisappearedOrders =
      (tickR9 s snap).1.pendingDisappearedOrders :=
    (finalizeTick_frame _ _ _).2.2.2.2.2.2.2.2.2.1
  have e8 : (tickR9 s snap).1.pendingDisappearedOrders =
      (tickR8 s snap).1.pendingDisappearedOrders :=
    (endRefresh_frame _ _ _).2.2.2.2.2.2.1
  have e7 : (tickR8 s snap).1.pendingDisappearedOrders =
      (tickR7 s snap).1.pendingDisappearedOrders :=
    (newPendLoop_frame _ _ _ _).2.2.2.2.2.2.2.1
  have e6 : (tickR7 s snap).1.pendingDisappearedOrders =
      (tickR6 s snap).1.pendingDisappearedOrders :=
    (newPosLoop_frame _ _ _ _ _).2.2.2.2.2.2.1
  rw [e9, e8, e7, e6] at h
  have h6 : (k, e) ∈ (tickR5 s snap).1.pendingDisappearedOrders :=
    queueLoop_queue_subset _ _ _ _ _ h
  have h5 := disappearedLoop_queue_mem snap.now _ _ _ _ k e h6
  rcases h5 with hm | ht
  · left
    have e4 : (tickR4 s snap).1.pendingDisappearedOrders =
        (tickS0 s snap).pendingDisappearedOrders :=
      (closeLoop_frame _ _ _).2.2.2.2.1
    have e0 : (tickS0 s snap).pendingDisappearedOrders =
        s.pendingDisappearedOrders := (rollover_frame _ _).2.2.2.2.2.2.2.1
    rw [e4, e0] at hm
    exact hm
  · exact Or.inr ht

/-- Auxiliary: a cancellation emitted by a tick comes from a pre-tick
queue entry at least the confirmation delay old. -/
lemma tick_cancel_aged (s : MonState) (snap : Snapshot) (oid : String)
    (h : 0 < ((tick s snap).2).countP (isCanceledFor oid)) :
    ∃ ts od, (oid, (ts, od)) ∈ s.pendingDisappearedOrders ∧
      order_processing_delay ≤ snap.now - ts := by
  rw [tick_eq] at h
  simp only [List.countP_append] at h
  have hc4 : ((tickR4 s snap).2).countP (isCanceledFor oid) = 0 :=
    closeLoop_countP _ (fun a b c d e f => rfl) (fun a b => rfl) (fun a b => rfl)
      rfl snap.deals _ _
  have hc5 : ((tickR5 s snap).2.1).countP (isCanceledFor oid) = 0 :=
    disappearedLoop_countP _ (fun o sym r => rfl) snap.now _ _ _ _
  have hc7 : ((tickR7 s snap).2.1).countP (isCanceledFor oid) = 0 :=
    newPosLoop_countP _ (fun o sym r => rfl) (fun o sym => rfl) _ _ _ _ _
  have hc8 : ((tickR8 s snap).2.1).countP (isCanceledFor oid) = 0 :=
    newPendLoop_countP _ (fun o sym => rfl) _ _ _ _
  have hc9 : ((tickR9 s snap).2).countP (isCanceledFor oid) = 0 :=
    endRefresh_countP _ rfl _ _ _
  have h6 : 0 < ((tickR6 s snap).2.1).countP (isCanceledFor oid) := by omega
  have hmem : oid ∈ ordersToProcess snap.now
      (tickR5 s snap).1.pendingDisappearedOrders :=
    queueLoop_cancel_mem _ _ _ _ _ h6
  obtain ⟨e, hq5, hage⟩ := mem_ordersToProcess _ _ _ hmem
  rcases disappearedLoop_queue_mem snap.now _ _ _ _ oid e hq5 with hm | ht
  · have e4 : (tickR4 s snap).1.pendingDisappearedOrders =
        (tickS0 s snap).pendingDisappearedOrders :=
      (closeLoop_frame _ _ _).2.2.2.2.1
    have e0 : (tickS0 s snap).pendingDisappearedOrders =
        s.pendingDisappearedOrders := (rollover_frame _ _).2.2.2.2.2.2.2.1
    rw [e4, e0] at hm
    exact ⟨e.1, e.2, hm, hage⟩
  · exfalso
    rw [ht] at hage
    simp only [sub_self] at hage
    have : (0 : ℚ) < order_processing_delay := by norm_num [order_processing_delay]
    linarith

/-- Auxiliary: the fast path resolves a disappeared order in the same
tick — it is marked processed at once and never enters the delayed
queue. -/
lemma disappearedStep_fast (now : ℚ) (cp : List (String × PosData))
    (oid : String) (s : MonState) (u : Bool)
    (h1 : s.processedOrders.contains oid = false)
    (h2 : containsKey s.pendingDisappearedOrders oid = false)
    (h3 : containsKey cp oid = true) :
    (disappearedStep now cp oid s u).1.processedOrders.contains oid = true ∧
    containsKey (disappearedStep now cp oid s u).1.pendingDisappearedOrders oid = false := by
  unfold disappearedStep linkTriggered
  dsimp only
  split_ifs with g1 g2
  · exfalso
    rcases (by simpa using g1 : s.processedOrders.contains oid = true ∨
        containsKey s.pendingDisappearedOrders oid = true) with hc | hc
    · rw [h1] at hc; exact Bool.noConfusion hc
    · rw [h2] at hc; exact Bool.noConfusion hc
  · exact ⟨by simp [mem_setAdd_self], h2⟩
  · exact ⟨by simp [mem_setAdd_self], h2⟩

/-- Auxiliary: cancellation times over a whole trace are bounded below by
the timestamps of the queue entries and the tick times. -/
lemma runTrace_cancel_bound (oid : String) (t0 : ℚ) :
    ∀ (snaps : List Snapshot) (s : MonState),
    (∀ e, (oid, e) ∈ s.pendingDisappearedOrders → t0 ≤ e.1) →
    (∀ sn ∈ snaps, t0 ≤ sn.now) →
    ∀ pr ∈ snaps.zip (runTrace s snaps).2,
      0 < (pr.2).countP (isCanceledFor oid) →
      t0 + order_processing_delay ≤ pr.1.now
  | [], s, _, _, pr, hpr, _ => absurd hpr (by simp)
  | snap :: rest, s, hq, hts, pr, hpr, hcnt => by
    simp only [runTrace, List.zip_cons_cons] at hpr
    rcases List.mem_cons.mp hpr with he | hm
    · subst he
      obtain ⟨ts, od, hmem, hage⟩ := tick_cancel_aged s snap oid hcnt
      have hge := hq (ts, od) hmem
      simp only []
      linarith
    · refine runTrace_cancel_bound oid t0 rest (tick s snap).1 ?_
        (fun sn hsn => hts sn (List.mem_cons_of_mem _ hsn)) pr hm hcnt
      intro e he
      rcases tick_queue_mem s snap oid e he with hm2 | ht
      · exact hq e hm2
      · rw [ht]
        exact hts snap (List.mem_cons_self _ _)

/-- C3: a disappeared order whose id is already among the current tick's
positions is resolved in that same tick with zero added delay (marked
processed, never queued); a cancellation emitted by a tick stems from a
queue entry at least the 3-second confirmation delay old; queue
timestamps originate at the wall-clock time of the tick that first
observed the order missing; hence over any trace every cancellation of an
order happens no earlier than the confirmation delay after its
first-missing time. -/
theorem claim3_confirmation_timing (oid : String) (now : ℚ)
    (cp : List (String × PosData)) (s : MonState) (u : Bool) (snap : Snapshot)
    (snaps : List Snapshot) (t0 : ℚ) :
    (s.processedOrders.contains oid = false →
      containsKey s.pendingDisappearedOrders oid = false →
      containsKey cp oid = true →
      (disappearedStep now cp oid s u).1.processedOrders.contains oid = true ∧
      containsKey (disappearedStep now cp oid s u).1.pendingDisappearedOrders oid
        = false) ∧
    (0 < msgCount (isCanceledFor oid) (tick s snap).2 →
      ∃ ts od, (oid, (ts, od)) ∈ s.pendingDisappearedOrders ∧
        order_processing_delay ≤ snap.now - ts) ∧
    (∀ k e, (k, e) ∈ (tick s snap).1.pendingDisappearedOrders →
      (k, e) ∈ s.pendingDisappearedOrders ∨ e.1 = snap.now) ∧
    ((∀ e, (oid, e) ∈ s.pendingDisappearedOrders → t0 ≤ e.1) →
      (∀ sn ∈ snaps, t0 ≤ sn.now) →
      ∀ pr ∈ snaps.zip (runTrace s snaps).2,
        0 < msgCount (isCanceledFor oid) pr.2 →
        t0 + order_processing_delay ≤ pr.1.now) := by
  refine ⟨fun h1 h2 h3 => disappearedStep_fast now cp oid s u h1 h2 h3, ?_,
    fun k e he => tick_queue_mem s snap k e he, ?_⟩
  · intro h
    exact tick_cancel_aged s snap oid (by simpa [msgCount] using h)
  · intro hq hts pr hpr hc
    exact runTrace_cancel_bound oid t0 snaps s hq hts pr hpr
      (by simpa [msgCount] using hc)

/-- C3 witness: a same-tick trigger is resolved immediately without
queueing; an order first observed missing at time 1 is cancelled at the
time-5 tick, which satisfies the 3-second bound. -/
theorem claim3_witness :
    ((initState 0).processedOrders.contains "O1" = false ∧
      containsKey (initState 0).pendingDisappearedOrders "O1" = false ∧
      containsKey [("O1", defaultPosData)] "O1" = true ∧
      (disappearedStep 0 [("O1", defaultPosData)] "O1" (initState 0)
        false).1.processedOrders.contains "O1" = true ∧
      containsKey (disappearedStep 0 [("O1", defaultPosData)] "O1" (initState 0)
        false).1.pendingDisappearedOrders "O1" = false) ∧
    (0 < msgCount (isCanceledFor "O1")
      (tick ⟨[], [], [], [], [], [], [], [("O1", (1, defaultOrdData))],
        none, 0, 0, [], 0, [], 1⟩ ⟨0, 5, [], [], []⟩).2 ∧
      ∃ ts od, ("O1", (ts, od)) ∈
          [("O1", ((1 : ℚ), defaultOrdData))] ∧
        order_processing_delay ≤ (5 : ℚ) - ts) ∧
    (∀ pr ∈ [(⟨0, 5, [], [], []⟩ : Snapshot)].zip
        (runTrace ⟨[], [], [], [], [], [], [], [("O1", (1, defaultOrdData))],
          none, 0, 0, [], 0, [], 1⟩ [⟨0, 5, [], [], []⟩]).2,
      0 < msgCount (isCanceledFor "O1") pr.2 →
      (1 : ℚ) + order_processing_delay ≤ pr.1.now) := by
  have hA := claim3_confirmation_timing "O1" 0 [("O1", defaultPosData)]
    (initState 0) false ⟨0, 5, [], [], []⟩ [] 0
  have hB := claim3_confirmation_timing "O1" 0 []
    ⟨[], [], [], [], [], [], [], [("O1", (1, defaultOrdData))],
      none, 0, 0, [], 0, [], 1⟩ false ⟨0, 5, [], [], []⟩
    [⟨0, 5, [], [], []⟩] 1
  have hfast := hA.1 (by decide) (by decide) (by decide)
  have hcnt : 0 < msgCount (isCanceledFor "O1")
      (tick ⟨[], [], [], [], [], [], [], [("O1", (1, defaultOrdData))],
        none, 0, 0, [], 0, [], 1⟩ ⟨0, 5, [], [], []⟩).2 := by decide
  refine ⟨⟨by decide, by decide, by decide, hfast.1, hfast.2⟩,
    ⟨hcnt, hB.2.1 hcnt⟩, ?_⟩
  refine hB.2.2.2 ?_ (by decide)
  intro e he
  have h2 := (Prod.ext_iff.mp (List.mem_singleton.mp he)).2
  rw [show e = ((1 : ℚ), defaultOrdData) from h2]

/-- Auxiliary: Boolean form of `mem_setAdd_ne`. -/
lemma contains_setAdd_ne (s : List String) (a t : String) (h : t ≠ a) :
    (setAdd s a).contains t = s.contains t := by
  rcases hc : s.contains t with _ | _
  · have hm : t ∉ s := by simpa using hc
    have hx : t ∉ setAdd s a := fun hx => hm ((mem_setAdd_ne s a t h).mp hx)
    simpa using hx
  · have hm : t ∈ s := by simpa using hc
    have hx : t ∈ setAdd s a := (mem_setAdd_ne s a t h).mpr hm
    simpa using hx

/-- Auxiliary: Boolean form of `mem_setAdd_self`. -/
lemma contains_setAdd_self (s : List String) (x : String) :
    (setAdd s x).contains x = true := by
  simpa using mem_setAdd_self s x

/-- Auxiliary: `insertA` does not disturb other keys' presence. -/
lemma containsKey_insertA_ne {α : Type} (l : List (String × α)) (k t : String)
    (v : α) (h : t ≠ k) : containsKey (insertA l k v) t = containsKey l t := by
  unfold containsKey
  rw [lookupA_insertA_ne l k t v h]

/-- Auxiliary: a linked id yields no triggered notice from the
disappeared-order loop and stays linked. -/
lemma disappearedLoop_zero_of_linked (t : String) (now : ℚ)
    (cp : List (String × PosData)) (ids : List String) (s : MonState) (u : Bool)
    (h : s.linkedOrders.contains t = true) :
    ((disappearedLoop now cp ids s u).2.1).countP (isTriggeredFor t) = 0 ∧
    (disappearedLoop now cp ids s u).1.linkedOrders.contains t = true := by
  have hp := disappearedLoop_potential t now cp ids s u
  unfold linkPotential at hp
  rw [h] at hp
  simp only [if_true] at hp
  rcases hc : (disappearedLoop now cp ids s u).1.linkedOrders.contains t with _ | _
  · rw [hc] at hp
    simp only [Bool.false_eq_true, if_false] at hp
    omega
  · rw [hc] at hp
    simp only [if_true] at hp
    exact ⟨by omega, rfl⟩

/-- Auxiliary: a linked id yields no triggered notice from the
delayed-queue loop and stays linked. -/
lemma queueLoop_zero_of_linked (t : String) (cp : List (String × PosData))
    (ids : List String) (s : MonState) (u : Bool)
    (h : s.linkedOrders.contains t = true) :
    ((queueLoop cp ids s u).2.1).countP (isTriggeredFor t) = 0 ∧
    (queueLoop cp ids s u).1.linkedOrders.contains t = true := by
  have hp := queueLoop_potential t cp ids s u
  unfold linkPotential at hp
  rw [h] at hp
  simp only [if_true] at hp
  rcases hc : (queueLoop cp ids s u).1.linkedOrders.contains t with _ | _
  · rw [hc] at hp
    simp only [Bool.false_eq_true, if_false] at hp
    omega
  · rw [hc] at hp
    simp only [if_true] at hp
    exact ⟨by omega, rfl⟩

/-- Auxiliary: a linked id yields no triggered notice from the
new-position loop. -/
lemma newPosLoop_zero_of_linked (t : String) (cp : List (String × PosData))
    (co : List (String × OrdData)) (ids : List String) (s : MonState) (u : Bool)
    (h : s.linkedOrders.contains t = true) :
    ((newPosLoop cp co ids s u).2.1).countP (isTriggeredFor t) = 0 := by
  have hp := newPosLoop_potential t cp co ids s u
  unfold linkPotential at hp
  rw [h] at hp
  simp only [if_true] at hp
  rcases hc : (newPosLoop cp co ids s u).1.linkedOrders.contains t with _ | _
  · rw [hc] at hp
    simp only [Bool.false_eq_true, if_false] at hp
    omega
  · rw [hc] at hp
    simp only [if_true] at hp
    omega

/-- Auxiliary: a delayed-queue iteration for one id does not mark other
ids processed. -/
lemma queueStep_processed_other (cp : List (String × PosData)) (oid : String)
    (s : MonState) (u : Bool) (t : String) (h : t ≠ oid) :
    (queueStep cp oid s u).1.processedOrders.contains t =
      s.processedOrders.contains t := by
  unfold queueStep linkTriggered
  dsimp only
  split_ifs <;> simp [mem_setAdd_ne _ _ _ h]

/-- Auxiliary: the delayed-queue loop emits no cancellation for an id not
in its work list. -/
lemma queueLoop_cancel_zero (cp : List (String × PosData)) (oid : String) :
    ∀ (ids : List String) (s : MonState) (u : Bool),
    oid ∉ ids →
    ((queueLoop cp ids s u).2.1).countP (isCanceledFor oid) = 0
  | [], s, u, _ => rfl
  | oid' :: rest, s, u, h => by
    have hne : oid' ≠ oid := fun he => h (he ▸ List.mem_cons_self _ _)
    have h2 := queueLoop_cancel_zero cp oid rest (queueStep cp oid' s u).1
      (queueStep cp oid' s u).2.2 (fun hm => h (List.mem_cons_of_mem _ hm))
    simp only [queueLoop, List.countP_append, h2]
    rcases queueStep_msgs cp oid' s u with hm | ⟨sym, r, hm⟩ | ⟨sym, r, hm⟩ <;>
      simp [hm, List.countP_cons, isCanceledFor, isTriggeredFor, hne]

/-- Auxiliary: a queue id that is unprocessed and not among the current
positions receives exactly one cancellation notice from the
delayed-queue loop. -/
lemma queueLoop_cancel_one (cp : List (String × PosData)) (oid : String) :
    ∀ (ids : List String) (s : MonState) (u : Bool),
    ids.Nodup → oid ∈ ids →
    s.processedOrders.contains oid = false →
    containsKey cp oid = false →
    ((queueLoop cp ids s u).2.1).countP (isCanceledFor oid) = 1
  | [], s, u, _, hm, _, _ => absurd hm (List.not_mem_nil _)
  | oid' :: rest, s, u, hnd, hm, hp, hcp => by
    by_cases he : oid' = oid
    · subst he
      have hnotm : oid' ∉ rest := (List.nodup_cons.mp hnd).1
      have hz := queueLoop_cancel_zero cp oid' rest (queueStep cp oid' s u).1
        (queueStep cp oid' s u).2.2 hnotm
      simp only [queueLoop, List.countP_append, hz]
      unfold queueStep linkTriggered
      dsimp only
      rw [if_neg (by simpa using hp), if_neg (by simp [hcp])]
      simp [List.countP_cons, isCanceledFor]
    · have hm' : oid ∈ rest := by
        rcases List.mem_cons.mp hm with h1 | h1
        · exact absurd h1.symm he
        · exact h1
      have hp' : (queueStep cp oid' s u).1.processedOrders.contains oid = false := by
        rw [queueStep_processed_other cp oid' s u oid (fun hh => he hh.symm)]
        exact hp
      have h2 := queueLoop_cancel_one cp oid rest (queueStep cp oid' s u).1
        (queueStep cp oid' s u).2.2 (List.nodup_cons.mp hnd).2 hm' hp' hcp
      simp only [queueLoop, List.countP_append, h2]
      rcases queueStep_msgs cp oid' s u with hmm | ⟨sym, r, hmm⟩ | ⟨sym, r, hmm⟩ <;>
        simp [hmm, List.countP_cons, isCanceledFor, isTriggeredFor, he]

/-- Auxiliary: a successful lookup implies key presence. -/
lemma containsKey_of_lookupA {α : Type} (l : List (String × α)) (k : String)
    (v : α) (h : lookupA l k = some v) : containsKey l k = true := by
  unfold containsKey
  rw [h]
  rfl

/-- Auxiliary: a fast-path/enqueue iteration never marks a queued id
processed (its own iteration hits the skip guard, others touch other
ids). -/
lemma disappearedStep_keeps (now : ℚ) (cp : List (String × PosData))
    (oid : String) (s : MonState) (u : Bool) (t : String)
    (hq : containsKey s.pendingDisappearedOrders t = true)
    (hp : s.processedOrders.contains t = false) :
    (disappearedStep now cp oid s u).1.processedOrders.contains t = false := by
  by_cases he : oid = t
  · subst he
    unfold disappearedStep
    rw [if_pos (by simp [hq])]
    exact hp
  · have ht : t ≠ oid := fun hh => he hh.symm
    unfold disappearedStep linkTriggered
    dsimp only
    split_ifs
    · exact hp
    · simpa [mem_setAdd_ne _ _ _ ht] using hp
    · simpa [mem_setAdd_ne _ _ _ ht] using hp
    · exact hp

/-- Auxiliary: loop version of `disappearedStep_keeps`: an id retained in
the delayed queue stays unprocessed through the disappeared-order loop. -/
lemma disappearedLoop_keeps (now : ℚ) (cp : List (String × PosData))
    (t : String) (v : ℚ × OrdData) :
    ∀ (ids : List String) (s : MonState) (u : Bool),
    lookupA s.pendingDisappearedOrders t = some v →
    s.processedOrders.contains t = false →
    (disappearedLoop now cp ids s u).1.processedOrders.contains t = false
  | [], s, u, _, hp => hp
  | oid :: rest, s, u, hq, hp => by
    simp only [disappearedLoop]
    exact disappearedLoop_keeps now cp t v rest _ _
      (disappearedStep_queue_lookup now cp oid s u t v hq)
      (disappearedStep_keeps now cp oid s u t
        (containsKey_of_lookupA _ _ _ hq) hp)

/-- Auxiliary: a fast-path/enqueue iteration keeps the queue keys
duplicate-free (enqueues only happen for keys not yet queued). -/
lemma disappearedStep_queue_nodup (now : ℚ) (cp : List (String × PosData))
    (oid : String) (s : MonState) (u : Bool)
    (h : (keysOf s.pendingDisappearedOrders).Nodup) :
    (keysOf (disappearedStep now cp oid s u).1.pendingDisappearedOrders).Nodup := by
  unfold disappearedStep linkTriggered
  dsimp only
  split_ifs with g1 g2 g3
  · exact h
  · exact h
  · exact h
  · have hq : containsKey s.pendingDisappearedOrders oid = false := by
      by_cases hc : containsKey s.pendingDisappearedOrders oid = true
      · exact absurd (by simp [hc]) g1
      · simpa using hc
    rw [insertA_fresh_append _ _ _ hq]
    unfold keysOf at h ⊢
    rw [List.map_append, List.nodup_append]
    refine ⟨h, List.nodup_singleton _, ?_⟩
    intro a ha hb
    have hb' : a = oid := by simpa using hb
    subst hb'
    have hc : containsKey s.pendingDisappearedOrders a = true :=
      (containsKey_iff_mem_keys _ _).mpr ha
    rw [hq] at hc
    exact Bool.noConfusion hc

/-- Auxiliary: the disappeared-order loop keeps the queue keys
duplicate-free. -/
lemma disappearedLoop_queue_nodup (now : ℚ) (cp : List (String × PosData)) :
    ∀ (ids : List String) (s : MonState) (u : Bool),
    (keysOf s.pendingDisappearedOrders).Nodup →
    (keysOf (disappearedLoop now cp ids s u).1.pendingDisappearedOrders).Nodup
  | [], s, u, h => h
  | oid :: rest, s, u, h => by
    simp only [disappearedLoop]
    exact disappearedLoop_queue_nodup now cp rest _ _
      (disappearedStep_queue_nodup now cp oid s u h)

/-- Auxiliary: duplicate-free queue keys yield a duplicate-free
delay-expired work list. -/
lemma ordersToProcess_nodup (now : ℚ) (q : List (String × (ℚ × OrdData)))
    (h : (keysOf q).Nodup) : (ordersToProcess now q).Nodup := by
  unfold ordersToProcess
  unfold keysOf at h
  exact h.sublist ((List.filter_sublist q).map Prod.fst)

/-- Auxiliary: a queue entry old enough is in the delay-expired work
list. -/
lemma mem_ordersToProcess_of_lookup (now : ℚ) (q : List (String × (ℚ × OrdData)))
    (oid : String) (e : ℚ × OrdData) (h : lookupA q oid = some e)
    (hage : order_processing_delay ≤ now - e.1) :
    oid ∈ ordersToProcess now q := by
  unfold ordersToProcess
  exact List.mem_map.mpr ⟨(oid, e),
    List.mem_filter.mpr ⟨lookupA_some_mem q oid e h, by simpa using hage⟩, rfl⟩

/-- Auxiliary: a fast-path/enqueue iteration for one id emits no triggered
notice for another id and leaves that id's tracking state alone. -/
lemma disappearedStep_other (now : ℚ) (cp : List (String × PosData))
    (oid : String) (s : MonState) (u : Bool) (t : String) (h : t ≠ oid) :
    ((disappearedStep now cp oid s u).2.1).countP (isTriggeredFor t) = 0 ∧
    (disappearedStep now cp oid s u).1.processedOrders.contains t =
      s.processedOrders.contains t ∧
    containsKey (disappearedStep now cp oid s u).1.pendingDisappearedOrders t =
      containsKey s.pendingDisappearedOrders t ∧
    (disappearedStep now cp oid s u).1.pendingOrderMessages =
      s.pendingOrderMessages ∧
    (disappearedStep now cp oid s u).1.linkedOrders.contains t =
      s.linkedOrders.contains t := by
  have ht : oid ≠ t := fun hh => h hh.symm
  have hne : (oid == t) = false := by simpa using ht
  unfold disappearedStep linkTriggered
  dsimp only
  split_ifs with g1 g2 g3
  · exact ⟨rfl, rfl, rfl, rfl, rfl⟩
  · refine ⟨?_, ?_, rfl, rfl, ?_⟩
    · simp [List.countP_cons, isTriggeredFor, hne]
    · exact contains_setAdd_ne _ _ _ h
    · exact contains_setAdd_ne _ _ _ h
  · exact ⟨rfl, contains_setAdd_ne _ _ _ h, rfl, rfl, rfl⟩
  · refine ⟨rfl, rfl, ?_, rfl, rfl⟩
    exact containsKey_insertA_ne _ _ _ _ h

/-- Auxiliary: the fast path announces a tracked, unlinked, same-tick
triggered order exactly once and links it. -/
lemma disappearedStep_trigger (now : ℚ) (cp : List (String × PosData))
    (oid : String) (s : MonState) (u : Bool)
    (hp : s.processedOrders.contains oid = false)
    (hq : containsKey s.pendingDisappearedOrders oid = false)
    (hcp : containsKey cp oid = true)
    (hpm : containsKey s.pendingOrderMessages oid = true)
    (hlk : s.linkedOrders.contains oid = false) :
    ((disappearedStep now cp oid s u).2.1).countP (isTriggeredFor oid) = 1 ∧
    (disappearedStep now cp oid s u).1.linkedOrders.contains oid = true := by
  unfold disappearedStep linkTriggered
  dsimp only
  split_ifs with g1 g2
  · exfalso
    rcases (by simpa using g1 : s.processedOrders.contains oid = true ∨
        containsKey s.pendingDisappearedOrders oid = true) with hc | hc
    · rw [hp] at hc
      exact Bool.noConfusion hc
    · rw [hq] at hc
      exact Bool.noConfusion hc
  · refine ⟨?_, contains_setAdd_self _ _⟩
    simp [List.countP_cons, isTriggeredFor]
  · exact absurd (by rw [hpm, hlk]; rfl) g2

/-- Auxiliary: in the disappeared-order loop, an id meeting the fast-path
trigger conditions receives exactly one triggered notice and ends up
linked. -/
lemma disappearedLoop_trigger_one (now : ℚ) (cp : List (String × PosData))
    (t : String) :
    ∀ (ids : List String) (s : MonState) (u : Bool),
    t ∈ ids →
    s.processedOrders.contains t = false →
    containsKey s.pendingDisappearedOrders t = false →
    containsKey cp t = true →
    containsKey s.pendingOrderMessages t = true →
    s.linkedOrders.contains t = false →
    ((disappearedLoop now cp ids s u).2.1).countP (isTriggeredFor t) = 1 ∧
    (disappearedLoop now cp ids s u).1.linkedOrders.contains t = true
  | [], s, u, hm, _, _, _, _, _ => absurd hm (List.not_mem_nil _)
  | oid :: rest, s, u, hm, hp, hq, hcp, hpm, hlk => by
    by_cases he : oid = t
    · subst he
      obtain ⟨c1, l1⟩ := disappearedStep_trigger now cp oid s u hp hq hcp hpm hlk
      obtain ⟨c2, l2⟩ := disappearedLoop_zero_of_linked oid now cp rest
        (disappearedStep now cp oid s u).1 (disappearedStep now cp oid s u).2.2 l1
      simp only [disappearedLoop, List.countP_append]
      exact ⟨by omega, l2⟩
    · have hne : t ≠ oid := fun hh => he hh.symm
      obtain ⟨c1, p1, q1, m1, l1⟩ := disappearedStep_other now cp oid s u t hne
      have hm' : t ∈ rest := by
        rcases List.mem_cons.mp hm with h1 | h1
        · exact absurd h1.symm he
        · exact h1
      obtain ⟨c2, l2⟩ := disappearedLoop_trigger_one now cp t rest
        (disappearedStep now cp oid s u).1 (disappearedStep now cp oid s u).2.2
        hm' (p1.trans hp) (q1.trans hq) hcp (by rw [m1]; exact hpm)
        (l1.trans hlk)
      simp only [disappearedLoop, List.countP_append]
      exact ⟨by omega, l2⟩

/-- Auxiliary: a tracked position absent from the current snapshot gets
exactly one close-kind notification in the tick. -/
lemma tick_close_count (s : MonState) (snap : Snapshot) (pid : String)
    (hnd : (keysOf s.lastPositions).Nodup)
    (hin : containsKey s.lastPositions pid = true)
    (hout : containsKey (tickCurPos s snap) pid = false) :
    ((tick s snap).2).countP (isCloseFor pid) = 1 := by
  rw [tick_eq]
  simp only [List.countP_append]
  have e0 : (tickS0 s snap).lastPositions = s.lastPositions :=
    (rollover_frame _ _).1
  have h4 : ((tickR4 s snap).2).countP (isCloseFor pid) =
      (closedIds (tickS0 s snap).lastPositions (tickCurPos s snap)).count pid :=
    closeLoop_count_close snap.deals pid _ _
  have hcnt : (closedIds s.lastPositions (tickCurPos s snap)).count pid = 1 := by
    unfold closedIds
    have hmem : pid ∈ (keysOf s.lastPositions).filter
        (fun x => ! containsKey (tickCurPos s snap) x) :=
      List.mem_filter.mpr ⟨(containsKey_iff_mem_keys _ _).mp hin, by simp [hout]⟩
    exact List.count_eq_one_of_mem (hnd.filter _) hmem
  rw [e0, hcnt] at h4
  have h5 : ((tickR5 s snap).2.1).countP (isCloseFor pid) = 0 :=
    disappearedLoop_countP _ (fun o sym r => rfl) snap.now _ _ _ _
  have h6 : ((tickR6 s snap).2.1).countP (isCloseFor pid) = 0 :=
    queueLoop_countP _ (fun o sym r => rfl) (fun o sym r => rfl) _ _ _ _
  have h7 : ((tickR7 s snap).2.1).countP (isCloseFor pid) = 0 :=
    newPosLoop_countP _ (fun o sym r => rfl) (fun o sym => rfl) _ _ _ _ _
  have h8 : ((tickR8 s snap).2.1).countP (isCloseFor pid) = 0 :=
    newPendLoop_countP _ (fun o sym => rfl) _ _ _ _
  have h9 : ((tickR9 s snap).2).countP (isCloseFor pid) = 0 :=
    endRefresh_countP _ rfl _ _ _
  omega

/-- Auxiliary: an aged, unprocessed queue entry whose id is not among the
current positions receives exactly one cancellation notice in the tick. -/
lemma tick_cancel_one (s : MonState) (snap : Snapshot) (oid : String)
    (ts : ℚ) (od : OrdData)
    (hq : lookupA s.pendingDisappearedOrders oid = some (ts, od))
    (hage : order_processing_delay ≤ snap.now - ts)
    (hp : s.processedOrders.contains oid = false)
    (hcp : containsKey (tickCurPos s snap) oid = false)
    (hnd : (keysOf s.pendingDisappearedOrders).Nodup) :
    ((tick s snap).2).countP (isCanceledFor oid) = 1 := by
  rw [tick_eq]
  simp only [List.countP_append]
  have e0q : (tickS0 s snap).pendingDisappearedOrders =
      s.pendingDisappearedOrders := (rollover_frame _ _).2.2.2.2.2.2.2.1
  have e0p : (tickS0 s snap).processedOrders = s.processedOrders :=
    (rollover_frame _ _).2.2.2.2.2.1
  have e4q : (tickR4 s snap).1.pendingDisappearedOrders =
      (tickS0 s snap).pendingDisappearedOrders :=
    (closeLoop_frame _ _ _).2.2.2.2.1
  have e4p : (tickR4 s snap).1.processedOrders =
      (tickS0 s snap).processedOrders := (closeLoop_frame _ _ _).2.2.1
  have h4q : lookupA (tickR4 s snap).1.pendingDisappearedOrders oid =
      some (ts, od) := by rw [e4q, e0q]; exact hq
  have h4p : (tickR4 s snap).1.processedOrders.contains oid = false := by
    rw [e4p, e0p]; exact hp
  have h4nd : (keysOf (tickR4 s snap).1.pendingDisappearedOrders).Nodup := by
    rw [e4q, e0q]; exact hnd
  have h5q : lookupA (tickR5 s snap).1.pendingDisappearedOrders oid =
      some (ts, od) :=
    disappearedLoop_queue_lookup snap.now _ _ _ _ oid (ts, od) h4q
  have h5p : (tickR5 s snap).1.processedOrders.contains oid = false :=
    disappearedLoop_keeps snap.now _ oid (ts, od) _ _ _ h4q h4p
  have h5nd : (keysOf (tickR5 s snap).1.pendingDisappearedOrders).Nodup :=
    disappearedLoop_queue_nodup snap.now _ _ _ _ h4nd
  have hmem : oid ∈ ordersToProcess snap.now
      (tickR5 s snap).1.pendingDisappearedOrders :=
    mem_ordersToProcess_of_lookup snap.now _ oid (ts, od) h5q hage
  have h6 : ((tickR6 s snap).2.1).countP (isCanceledFor oid) = 1 :=
    queueLoop_cancel_one (tickCurPos s snap) oid _ _ _
      (ordersToProcess_nodup _ _ h5nd) hmem h5p hcp
  have hz4 : ((tickR4 s snap).2).countP (isCanceledFor oid) = 0 :=
    closeLoop_countP _ (fun a b c d e f => rfl) (fun a b => rfl)
      (fun a b => rfl) rfl snap.deals _ _
  have hz5 : ((tickR5 s snap).2.1).countP (isCanceledFor oid) = 0 :=
    disappearedLoop_countP _ (fun o sym r => rfl) snap.now _ _ _ _
  have hz7 : ((tickR7 s snap).2.1).countP (isCanceledFor oid) = 0 :=
    newPosLoop_countP _ (fun o sym r => rfl) (fun o sym => rfl) _ _ _ _ _
  have hz8 : ((tickR8 s snap).2.1).countP (isCanceledFor oid) = 0 :=
    newPendLoop_countP _ (fun o sym => rfl) _ _ _ _
  have hz9 : ((tickR9 s snap).2).countP (isCanceledFor oid) = 0 :=
    endRefresh_countP _ rfl _ _ _
  omega

/-- Auxiliary: a tracked, unlinked pending order that disappears while its
id is among the current positions receives exactly one triggered notice
in the tick. -/
lemma tick_trigger_fast (s : MonState) (snap : Snapshot) (oid : String)
    (hin : containsKey s.lastPendingOrders oid = true)
    (hout : containsKey (tickCurOrd snap) oid = false)
    (hp : s.processedOrders.contains oid = false)
    (hq : containsKey s.pendingDisappearedOrders oid = false)
    (hcp : containsKey (tickCurPos s snap) oid = true)
    (hpm : containsKey s.pendingOrderMessages oid = true)
    (hlk : s.linkedOrders.contains oid = false) :
    ((tick s snap).2).countP (isTriggeredFor oid) = 1 := by
  rw [tick_eq]
  simp only [List.countP_append]
  have e0o : (tickS0 s snap).lastPendingOrders = s.lastPendingOrders :=
    (rollover_frame _ _).2.1
  have e0p : (tickS0 s snap).processedOrders = s.processedOrders :=
    (rollover_frame _ _).2.2.2.2.2.1
  have e0q : (tickS0 s snap).pendingDisappearedOrders =
      s.pendingDisappearedOrders := (rollover_frame _ _).2.2.2.2.2.2.2.1
  have e0m : (tickS0 s snap).pendingOrderMessages = s.pendingOrderMessages :=
    (rollover_frame _ _).2.2.2.1
  have e0l : (tickS0 s snap).linkedOrders = s.linkedOrders :=
    (rollover_frame _ _).2.2.2.2.2.2.1
  have e4o : (tickR4 s snap).1.lastPendingOrders =
      (tickS0 s snap).lastPendingOrders :=
    (closeLoop_frame _ _ _).2.2.2.2.2.2.2.2.1
  have e4p : (tickR4 s snap).1.processedOrders =
      (tickS0 s snap).processedOrders := (closeLoop_frame _ _ _).2.2.1
  have e4q : (tickR4 s snap).1.pendingDisappearedOrders =
      (tickS0 s snap).pendingDisappearedOrders :=
    (closeLoop_frame _ _ _).2.2.2.2.1
  have e4m : (tickR4 s snap).1.pendingOrderMessages =
      (tickS0 s snap).pendingOrderMessages := (closeLoop_frame _ _ _).2.2.2.1
  have e4l : (tickR4 s snap).1.linkedOrders = (tickS0 s snap).linkedOrders :=
    (closeLoop_frame _ _ _).2.1
  have hmem : oid ∈ disappearedIds (tickS0 s snap).lastPendingOrders
      (tickCurOrd snap) := by
    rw [e0o]
    unfold disappearedIds
    exact List.mem_filter.mpr
      ⟨(containsKey_iff_mem_keys _ _).mp hin, by simp [hout]⟩
  have h5 := disappearedLoop_trigger_one snap.now (tickCurPos s snap) oid
    (disappearedIds (tickS0 s snap).lastPendingOrders (tickCurOrd snap))
    (tickR4 s snap).1 false hmem
    (by rw [e4p, e0p]; exact hp) (by rw [e4q, e0q]; exact hq) hcp
    (by rw [e4m, e0m]; exact hpm) (by rw [e4l, e0l]; exact hlk)
  have h5c : ((tickR5 s snap).2.1).countP (isTriggeredFor oid) = 1 := h5.1
  have h5l : (tickR5 s snap).1.linkedOrders.contains oid = true := h5.2
  have h6 := queueLoop_zero_of_linked oid (tickCurPos s snap)
    (ordersToProcess snap.now (tickR5 s snap).1.pendingDisappearedOrders)
    (tickR5 s snap).1 (tickR5 s snap).2.2 h5l
  have h6c : ((tickR6 s snap).2.1).countP (isTriggeredFor oid) = 0 := h6.1
  have h6l : (tickR6 s snap).1.linkedOrders.contains oid = true := h6.2
  have h7c : ((tickR7 s snap).2.1).countP (isTriggeredFor oid) = 0 :=
    newPosLoop_zero_of_linked oid (tickCurPos s snap) (tickCurOrd snap)
      (newPositionIds (tickS0 s snap).lastPositions (tickCurPos s snap))
      (tickR6 s snap).1 (tickR6 s snap).2.2 h6l
  have hz4 : ((tickR4 s snap).2).countP (isTriggeredFor oid) = 0 :=
    closeLoop_countP _ (fun a b c d e f => rfl) (fun a b => rfl)
      (fun a b => rfl) rfl snap.deals _ _
  have hz8 : ((tickR8 s snap).2.1).countP (isTriggeredFor oid) = 0 :=
    newPendLoop_countP _ (fun o sym => rfl) _ _ _ _
  have hz9 : ((tickR9 s snap).2).countP (isTriggeredFor oid) = 0 :=
    endRefresh_countP _ rfl _ _ _
  omega

/-- C1 (amended): per classified event and tick, under duplicate-free
snapshot keys — a tracked position absent from the current snapshot gets
exactly one close-kind notification (degraded forms included); an aged,
unprocessed queue entry whose id is not among the current positions gets
exactly one cancellation notice; a disappearing order whose id is among
the current positions and whose pending announcement is tracked and
unlinked gets exactly one triggered notice; but a disappeared order whose
pending announcement is not tracked is resolved silently — the tick emits
no triggered notice for it, so a resolved order can be dropped without
any notification. -/
theorem claim1_event_notifications (s : MonState) (snap : Snapshot)
    (pid oid : String) (ts : ℚ) (od : OrdData) :
    ((keysOf s.lastPositions).Nodup →
      containsKey s.lastPositions pid = true →
      containsKey (tickCurPos s snap) pid = false →
      msgCount (isCloseFor pid) (tick s snap).2 = 1) ∧
    (lookupA s.pendingDisappearedOrders oid = some (ts, od) →
      order_processing_delay ≤ snap.now - ts →
      s.processedOrders.contains oid = false →
      containsKey (tickCurPos s snap) oid = false →
      (keysOf s.pendingDisappearedOrders).Nodup →
      msgCount (isCanceledFor oid) (tick s snap).2 = 1) ∧
    (containsKey s.lastPendingOrders oid = true →
      containsKey (tickCurOrd snap) oid = false →
      s.processedOrders.contains oid = false →
      containsKey s.pendingDisappearedOrders oid = false →
      containsKey (tickCurPos s snap) oid = true →
      containsKey s.pendingOrderMessages oid = true →
      s.linkedOrders.contains oid = false →
      msgCount (isTriggeredFor oid) (tick s snap).2 = 1) ∧
    (containsKey s.pendingOrderMessages oid = false →
      msgCount (isTriggeredFor oid) (tick s snap).2 = 0) := by
  refine ⟨?_, ?_, ?_, ?_⟩
  · intro h1 h2 h3
    exact tick_close_count s snap pid h1 h2 h3
  · intro h1 h2 h3 h4 h5
    exact tick_cancel_one s snap oid ts od h1 h2 h3 h4 h5
  · intro h1 h2 h3 h4 h5 h6 h7
    exact tick_trigger_fast s snap oid h1 h2 h3 h4 h5 h6 h7
  · intro h1
    exact tick_noPending oid s snap h1

/-- C1 counterexample: an order sharing its id with a position announced in
the same tick never receives a pending-order announcement (the new-pending
loop skips ids already tracked as position messages); when the order later
disappears while the position persists, the engine resolves it as
triggered silently — after the second tick the id is marked processed and
gone from the tracked pending orders, yet that tick emitted only the
summary update, no triggered or cancellation notice.  This refutes the
claim that no resolved order is ever dropped without a notification. -/
theorem claim1_counterexample :
    containsKey ((tick (initState 0)
        ⟨0, 0,
          [⟨some "O1", some (PyNum.int 1), none, none, "POSITION_TYPE_BUY",
            "EURUSD", some "O1"⟩],
          [⟨some "O1", some 1, none, none, "ORDER_TYPE_BUY_LIMIT", "EURUSD"⟩],
          []⟩).1).lastPendingOrders "O1" = true ∧
    (tick (tick (initState 0)
        ⟨0, 0,
          [⟨some "O1", some (PyNum.int 1), none, none, "POSITION_TYPE_BUY",
            "EURUSD", some "O1"⟩],
          [⟨some "O1", some 1, none, none, "ORDER_TYPE_BUY_LIMIT", "EURUSD"⟩],
          []⟩).1
      ⟨0, 10,
        [⟨some "O1", some (PyNum.int 1), none, none, "POSITION_TYPE_BUY",
          "EURUSD", some "O1"⟩],
        [], []⟩).1.processedOrders.contains "O1" = true ∧
    containsKey (tick (tick (initState 0)
        ⟨0, 0,
          [⟨some "O1", some (PyNum.int 1), none, none, "POSITION_TYPE_BUY",
            "EURUSD", some "O1"⟩],
          [⟨some "O1", some 1, none, none, "ORDER_TYPE_BUY_LIMIT", "EURUSD"⟩],
          []⟩).1
      ⟨0, 10,
        [⟨some "O1", some (PyNum.int 1), none, none, "POSITION_TYPE_BUY",
          "EURUSD", some "O1"⟩],
        [], []⟩).1.lastPendingOrders "O1" = false ∧
    (tick (tick (initState 0)
        ⟨0, 0,
          [⟨some "O1", some (PyNum.int 1), none, none, "POSITION_TYPE_BUY",
            "EURUSD", some "O1"⟩],
          [⟨some "O1", some 1, none, none, "ORDER_TYPE_BUY_LIMIT", "EURUSD"⟩],
          []⟩).1
      ⟨0, 10,
        [⟨some "O1", some (PyNum.int 1), none, none, "POSITION_TYPE_BUY",
          "EURUSD", some "O1"⟩],
        [], []⟩).2 = [Msg.statusUpdate] := by decide

/-- C1 witness: concrete single-tick scenarios for each conjunct — a
tracked position that vanishes yields one degraded close notice; a
queue entry past the 3-second delay yields one cancellation; a tracked
unlinked disappearing order re-seen as a position yields one triggered
notice; and with no tracked announcement the fast path emits nothing. -/
theorem claim1_witness :
    (containsKey [("P1", defaultPosData)] "P1" = true ∧
      msgCount (isCloseFor "P1")
        (tick ⟨[("P1", defaultPosData)], [], [], [], [], [], [], [], none, 0,
          0, [], 0, [], 1⟩ ⟨0, 0, [], [], []⟩).2 = 1) ∧
    (order_processing_delay ≤ (5 : ℚ) - 1 ∧
      msgCount (isCanceledFor "O1")
        (tick ⟨[], [], [], [], [], [], [], [("O1", (1, defaultOrdData))], none,
          0, 0, [], 0, [], 1⟩ ⟨0, 5, [], [], []⟩).2 = 1) ∧
    (msgCount (isTriggeredFor "O2")
        (tick ⟨[], [], [("O2", defaultOrdData)], [("O2", 1)], [], [], [], [],
          none, 0, 0, [], 0, [], 2⟩
          ⟨0, 0, [⟨some "O2", some (PyNum.int 1), none, none,
            "POSITION_TYPE_BUY", "EURUSD", none⟩], [], []⟩).2 = 1) ∧
    (msgCount (isTriggeredFor "O3")
        (tick (initState 0) ⟨0, 0, [], [], []⟩).2 = 0) := by
  refine ⟨⟨by decide, ?_⟩, ⟨by decide, ?_⟩, ?_, ?_⟩
  · exact (claim1_event_notifications
      ⟨[("P1", defaultPosData)], [], [], [], [], [], [], [], none, 0, 0, [],
        0, [], 1⟩ ⟨0, 0, [], [], []⟩ "P1" "X" 0 defaultOrdData).1
      (by decide) (by decide) (by decide)
  · exact (claim1_event_notifications
      ⟨[], [], [], [], [], [], [], [("O1", (1, defaultOrdData))], none, 0, 0,
        [], 0, [], 1⟩ ⟨0, 5, [], [], []⟩ "P" "O1" 1 defaultOrdData).2.1
      (by decide) (by decide) (by decide) (by decide) (by decide)
  · exact (claim1_event_notifications
      ⟨[], [], [("O2", defaultOrdData)], [("O2", 1)], [], [], [], [], none, 0,
        0, [], 0, [], 2⟩
      ⟨0, 0, [⟨some "O2", some (PyNum.int 1), none, none, "POSITION_TYPE_BUY",
        "EURUSD", none⟩], [], []⟩ "P" "O2" 0 defaultOrdData).2.2.1
      (by decide) (by decide) (by decide) (by decide) (by decide) (by decide)
      (by decide)
  · exact (claim1_event_notifications (initState 0) ⟨0, 0, [], [], []⟩ "P"
      "O3" 0 defaultOrdData).2.2.2 (by decide)

/-- C4 witness: the specification's scenario — long position, open 1.2000,
TP 1.2100, closing at 1.2098 — is classified take-profit with delta
0.0098. -/
theorem claim4_witness :
    pyIn "buy" (pyLower "POSITION_TYPE_BUY") = true ∧
    (classifyClose (12 / 10) (some (121 / 100)) none "POSITION_TYPE_BUY"
        (12098 / 10000)).1 = 12098 / 10000 - 12 / 10 ∧
    (classifyClose (12 / 10) (some (121 / 100)) none "POSITION_TYPE_BUY"
        (12098 / 10000)).2 = "Closed via TP" := by
  have hb : pyIn "buy" (pyLower "POSITION_TYPE_BUY") = true := by decide
  have h := (claim4_close_classification (12 / 10) (12098 / 10000)
    (some (121 / 100)) none "POSITION_TYPE_BUY").1 hb
  exact ⟨hb, h.1, (h.2.1).mpr ⟨121 / 100, rfl, by decide⟩⟩

end KroomManager
